import Mathlib

/-!
Verification of the openai-proxy gateway against its specification.

JavaScript strings are modelled as `List Char`; JSON values as the mutual
inductive `Json` (numbers restricted to integers, which covers every value
the proxy manipulates); `JSON.parse` / `JSON.stringify` are modelled by the
executable `jsonParse` / `serJson` below, with a proved round trip.
-/

namespace Proxy

abbrev JStr := List Char

def lbrace : Char := Char.ofNat 123
def rbrace : Char := Char.ofNat 125
def bslash : Char := Char.ofNat 92

/-- Whitespace characters recognised by the regex class backslash-s and by
String.prototype.trim (ASCII part). -/
def jsWs (c : Char) : Bool :=
  c.toNat = 32 || c.toNat = 9 || c.toNat = 10 || c.toNat = 13 || c.toNat = 11 || c.toNat = 12

def skipWs (l : JStr) : JStr := l.dropWhile jsWs

def dropTrailingWs (l : JStr) : JStr := (l.reverse.dropWhile jsWs).reverse

/-- Substring test, modelling String.prototype.includes. -/
def includesSub (needle hay : JStr) : Bool :=
  if needle.isPrefixOf hay then true
  else
    match hay with
    | [] => false
    | _ :: t => includesSub needle t

mutual
inductive Json where
  | null : Json
  | bool (b : Bool) : Json
  | num (n : Int) : Json
  | str (s : JStr) : Json
  | arr (xs : JsonArr) : Json
  | obj (xs : JsonObj) : Json
deriving DecidableEq

inductive JsonArr where
  | nil : JsonArr
  | cons (hd : Json) (tl : JsonArr) : JsonArr
deriving DecidableEq

inductive JsonObj where
  | nil : JsonObj
  | cons (k : JStr) (v : Json) (tl : JsonObj) : JsonObj
deriving DecidableEq
end

def digitChar (d : Nat) : Char := Char.ofNat (48 + d)

def nullLit : JStr := ['n', 'u', 'l', 'l']
def trueLit : JStr := ['t', 'r', 'u', 'e']
def falseLit : JStr := ['f', 'a', 'l', 's', 'e']

def natDigitValsAux : Nat → Nat → List Nat
  | 0, _ => []
  | fuel + 1, n => if n < 10 then [n] else natDigitValsAux fuel (n / 10) ++ [n % 10]

/-- Decimal digit values of a natural number, most significant first. -/
def natDigitVals (n : Nat) : List Nat := natDigitValsAux (n + 1) n

def natDigits (n : Nat) : JStr := (natDigitVals n).map digitChar

def intChars (n : Int) : JStr :=
  if n < 0 then '-' :: natDigits n.natAbs else natDigits n.toNat

def hexDigitChar (d : Nat) : Char :=
  if d < 10 then Char.ofNat (48 + d) else Char.ofNat (87 + d)

/-- The four-hex-digit escape for a control character with code `n < 32`. -/
def uEsc (n : Nat) : JStr :=
  [bslash, 'u', '0', '0', hexDigitChar (n / 16), hexDigitChar (n % 16)]

/-- Escape of one character, as produced by JSON.stringify. -/
def escChar (c : Char) : JStr :=
  if c = '"' then [bslash, '"']
  else if c = bslash then [bslash, bslash]
  else if c.toNat = 8 then [bslash, 'b']
  else if c.toNat = 9 then [bslash, 't']
  else if c.toNat = 10 then [bslash, 'n']
  else if c.toNat = 12 then [bslash, 'f']
  else if c.toNat = 13 then [bslash, 'r']
  else if c.toNat < 32 then uEsc c.toNat
  else [c]

def escape : JStr → JStr
  | [] => []
  | c :: cs => escChar c ++ escape cs

mutual
/-- JSON.stringify (compact form, no added whitespace). -/
def serJson : Json → JStr
  | .null => nullLit
  | .bool true => trueLit
  | .bool false => falseLit
  | .num n => intChars n
  | .str s => '"' :: (escape s ++ ['"'])
  | .arr xs => '[' :: serArrBody xs
  | .obj xs => lbrace :: serObjBody xs

def serArrBody : JsonArr → JStr
  | .nil => [']']
  | .cons h t => serJson h ++ serArrTail t

def serArrTail : JsonArr → JStr
  | .nil => [']']
  | .cons h t => ',' :: (serJson h ++ serArrTail t)

def serObjBody : JsonObj → JStr
  | .nil => [rbrace]
  | .cons k v t => '"' :: (escape k ++ '"' :: ':' :: (serJson v ++ serObjTail t))

def serObjTail : JsonObj → JStr
  | .nil => [rbrace]
  | .cons k v t => ',' :: '"' :: (escape k ++ '"' :: ':' :: (serJson v ++ serObjTail t))
end

def hexVal (c : Char) : Option Nat :=
  if 48 ≤ c.toNat ∧ c.toNat ≤ 57 then some (c.toNat - 48)
  else if 97 ≤ c.toNat ∧ c.toNat ≤ 102 then some (c.toNat - 87)
  else if 65 ≤ c.toNat ∧ c.toNat ≤ 70 then some (c.toNat - 55)
  else none

def digitVal (c : Char) : Option Nat :=
  if 48 ≤ c.toNat ∧ c.toNat ≤ 57 then some (c.toNat - 48) else none

/-- Decoding of the single-character escape codes accepted by JSON.parse. -/
def escCode (e : Char) : Option Char :=
  if e = '"' then some '"'
  else if e = bslash then some bslash
  else if e = '/' then some '/'
  else if e = 'b' then some (Char.ofNat 8)
  else if e = 't' then some (Char.ofNat 9)
  else if e = 'n' then some (Char.ofNat 10)
  else if e = 'f' then some (Char.ofNat 12)
  else if e = 'r' then some (Char.ofNat 13)
  else none

/-- Parse the body of a JSON string literal (after the opening quote),
returning the decoded characters and the input after the closing quote. -/
def parseStrBody : JStr → Option (JStr × JStr)
  | [] => none
  | c :: rest =>
    if c = '"' then some ([], rest)
    else if c = bslash then
      match rest with
      | [] => none
      | e :: rest2 =>
        if e = 'u' then
          match rest2 with
          | h1 :: h2 :: h3 :: h4 :: rest3 =>
            match hexVal h1, hexVal h2, hexVal h3, hexVal h4 with
            | some a, some b, some g, some d =>
              (parseStrBody rest3).map
                (fun p => (Char.ofNat (((a * 16 + b) * 16 + g) * 16 + d) :: p.1, p.2))
            | _, _, _, _ => none
          | _ => none
        else
          match escCode e with
          | some d => (parseStrBody rest2).map (fun p => (d :: p.1, p.2))
          | none => none
    else (parseStrBody rest).map (fun p => (c :: p.1, p.2))

def takeDigits : JStr → (List Nat × JStr)
  | [] => ([], [])
  | c :: rest =>
    match digitVal c with
    | some d =>
      let p := takeDigits rest
      (d :: p.1, p.2)
    | none => ([], c :: rest)

def digitsToNat (ds : List Nat) : Nat := ds.foldl (fun a d => a * 10 + d) 0

def parseNum : JStr → Option (Int × JStr)
  | [] => none
  | c :: rest =>
    if c = '-' then
      match takeDigits rest with
      | ([], _) => none
      | (ds, r) => some (-(digitsToNat ds : Int), r)
    else
      match takeDigits (c :: rest) with
      | ([], _) => none
      | (ds, r) => some ((digitsToNat ds : Int), r)

def expectLit (lit : JStr) (l : JStr) (v : Json) : Option (Json × JStr) :=
  if lit.isPrefixOf l then some (v, l.drop lit.length) else none

mutual
def parseVal : Nat → JStr → Option (Json × JStr)
  | 0, _ => none
  | fuel + 1, l =>
    match skipWs l with
    | [] => none
    | c :: rest =>
      if c = 'n' then expectLit ['u', 'l', 'l'] rest .null
      else if c = 't' then expectLit ['r', 'u', 'e'] rest (.bool true)
      else if c = 'f' then expectLit ['a', 'l', 's', 'e'] rest (.bool false)
      else if c = '"' then (parseStrBody rest).map (fun p => (.str p.1, p.2))
      else if c = '[' then parseArrItems fuel rest
      else if c = lbrace then parseObjItems fuel rest
      else (parseNum (c :: rest)).map (fun p => (.num p.1, p.2))

def parseArrItems : Nat → JStr → Option (Json × JStr)
  | 0, _ => none
  | fuel + 1, l =>
    match skipWs l with
    | [] => none
    | c :: rest =>
      if c = ']' then some (.arr .nil, rest)
      else
        match parseVal fuel (c :: rest) with
        | none => none
        | some (v, r) =>
          match parseArrRest fuel r with
          | none => none
          | some (t, r2) => some (.arr (.cons v t), r2)

def parseArrRest : Nat → JStr → Option (JsonArr × JStr)
  | 0, _ => none
  | fuel + 1, l =>
    match skipWs l with
    | [] => none
    | c :: rest =>
      if c = ']' then some (.nil, rest)
      else if c = ',' then
        match parseVal fuel rest with
        | none => none
        | some (v, r) =>
          match parseArrRest fuel r with
          | none => none
          | some (t, r2) => some (.cons v t, r2)
      else none

def parseObjItems : Nat → JStr → Option (Json × JStr)
  | 0, _ => none
  | fuel + 1, l =>
    match skipWs l with
    | [] => none
    | c :: rest =>
      if c = rbrace then some (.obj .nil, rest)
      else if c = '"' then
        match parseStrBody rest with
        | none => none
        | some (k, r) =>
          match skipWs r with
          | [] => none
          | c2 :: r2 =>
            if c2 = ':' then
              match parseVal fuel r2 with
              | none => none
              | some (v, r3) =>
                match parseObjRest fuel r3 with
                | none => none
                | some (t, r4) => some (.obj (.cons k v t), r4)
            else none
      else none

def parseObjRest : Nat → JStr → Option (JsonObj × JStr)
  | 0, _ => none
  | fuel + 1, l =>
    match skipWs l with
    | [] => none
    | c :: rest =>
      if c = rbrace then some (.nil, rest)
      else if c = ',' then
        match skipWs rest with
        | [] => none
        | c1 :: r1 =>
          if c1 = '"' then
            match parseStrBody r1 with
            | none => none
            | some (k, r) =>
              match skipWs r with
              | [] => none
              | c2 :: r2 =>
                if c2 = ':' then
                  match parseVal fuel r2 with
                  | none => none
                  | some (v, r3) =>
                    match parseObjRest fuel r3 with
                    | none => none
                    | some (t, r4) => some (.cons k v t, r4)
                else none
          else none
      else none
end

/-- JSON.parse: accepts exactly one JSON value with optional surrounding
whitespace, rejecting trailing garbage. -/
def jsonParse (l : JStr) : Option Json :=
  match parseVal (l.length + 1) l with
  | some (v, r) => if skipWs r = [] then some v else none
  | none => none

/-- Heads of the continuation that may follow a serialized value: used to
keep the number parser from running into the following characters. -/
def noDigitHead : JStr → Bool
  | [] => true
  | c :: _ => (digitVal c).isNone

def backtick : Char := Char.ofNat 96

/-! Generic JavaScript semantics on the `Json` model: field access, truthiness,
typeof-object test, string coercion, indexing. -/

def objLookup : JsonObj → JStr → Option Json
  | .nil, _ => none
  | .cons k v t, key => if k = key then some v else objLookup t key

/-- Property access `v[key]`: `undefined` (`none`) when absent or when the
receiver has no own properties in the model. -/
def getField (v : Json) (key : JStr) : Option Json :=
  match v with
  | .obj kvs => objLookup kvs key
  | _ => none

/-- JavaScript truthiness of a JSON value. -/
def truthy : Json → Bool
  | .null => false
  | .bool b => b
  | .num n => decide (¬ n = 0)
  | .str s => decide (¬ s = [])
  | .arr _ => true
  | .obj _ => true

def truthyOpt : Option Json → Bool
  | none => false
  | some v => truthy v

/-- `typeof v === 'object'` — true for objects, arrays and null. -/
def isObjectType : Json → Bool
  | .null => true
  | .arr _ => true
  | .obj _ => true
  | _ => false

def isArrayOpt : Option Json → Bool
  | some (.arr _) => true
  | _ => false

mutual
/-- String coercion as performed by template literals and JSON.parse's
argument conversion. -/
def jsToString : Json → JStr
  | .null => nullLit
  | .bool true => trueLit
  | .bool false => falseLit
  | .num n => intChars n
  | .str s => s
  | .arr xs => arrJoin xs
  | .obj _ => ('[' :: "object Object]".toList)

/-- Array.prototype.toString: comma-joined elements, null printed empty. -/
def arrJoin : JsonArr → JStr
  | .nil => []
  | .cons .null .nil => []
  | .cons h .nil => jsToString h
  | .cons .null t => ',' :: arrJoin t
  | .cons h t => jsToString h ++ ',' :: arrJoin t
end

/-- `v[0]`: first element of an array, first character of a string. -/
def jsIndex0 : Json → Option Json
  | .arr (.cons h _) => some h
  | .str (c :: _) => some (.str [c])
  | _ => none

/-! Embedding of the combined proxy variant: constants, sanitizer
(cleanOpenAIResponse), validator (validateResponseStructure), safe parse
wrapper (safeJsonParse), endpoint translator (convertToChatCompletion /
transformResponse), JSON body-parser middleware and catch-all route. -/

def chatCompletionsKey : JStr := "chat/completions".toList
def workoutPlanKey : JStr := "workout-plan".toList
def mealPlanKey : JStr := "meal-plan".toList

def idKey : JStr := "id".toList
def choicesKey : JStr := "choices".toList
def messageKey : JStr := "message".toList
def contentKey : JStr := "content".toList
def roleKey : JStr := "role".toList
def nameKey : JStr := "name".toList
def descriptionKey : JStr := "description".toList
def daysKey : JStr := "days".toList
def mealsKey : JStr := "meals".toList
def promptKey : JStr := "prompt".toList
def maxTokensKey : JStr := "max_tokens".toList

/-- The EXPECTED_STRUCTURES lookup table declared at the top of the combined
variant (declared but never consulted by the validator). -/
structure ExpectedStructure where
  required : List JStr
  optional : List JStr
deriving DecidableEq

def EXPECTED_STRUCTURES (key : JStr) : Option ExpectedStructure :=
  if key = chatCompletionsKey then
    some ⟨[choicesKey],
      [idKey, "object".toList, "created".toList, "model".toList, "usage".toList]⟩
  else if key = workoutPlanKey then
    some ⟨[nameKey, descriptionKey, daysKey],
      ["duration".toList, "difficulty".toList, "equipment".toList]⟩
  else if key = mealPlanKey then
    some ⟨[nameKey, descriptionKey, mealsKey],
      ["calories".toList, "duration".toList, "dietaryRestrictions".toList]⟩
  else none

inductive CleanErr where
  | notString   -- 'Response must be a string'
  | chatParse   -- SyntaxError from the unguarded JSON.parse on the chat-completions path
  | cleanFail   -- 'Failed to clean and parse OpenAI response'
deriving DecidableEq

/-- Replace of the anchored regex stripping a leading three-backtick marker with
a `json` language tag (case-insensitive) and following whitespace. -/
def stripFenceJson (l : JStr) : JStr :=
  if (l.take 7).map Char.toLower = [backtick, backtick, backtick, 'j', 's', 'o', 'n'] then
    skipWs (l.drop 7)
  else l

/-- Replace of the anchored regex stripping a leading bare three-backtick marker
and following whitespace. -/
def stripFencePlain (l : JStr) : JStr :=
  if l.take 3 = [backtick, backtick, backtick] then skipWs (l.drop 3) else l

/-- Replace of the regex stripping a trailing three-backtick marker and the
whitespace before it; the marker must sit at the very end of the string. -/
def stripTrailFence (l : JStr) : JStr :=
  if [backtick, backtick, backtick].isSuffixOf l then dropTrailingWs (l.take (l.length - 3))
  else l

/-- Replace collapsing leading whitespace around an opening brace. -/
def normStart (l : JStr) : JStr :=
  match skipWs l with
  | c :: t => if c = lbrace then lbrace :: skipWs t else l
  | [] => l

/-- Replace collapsing trailing whitespace around a closing brace at the end. -/
def normEnd (l : JStr) : JStr :=
  match (dropTrailingWs l).reverse with
  | c :: r => if c = rbrace then (r.dropWhile jsWs).reverse ++ [rbrace] else l
  | [] => l

def jsTrim (l : JStr) : JStr := dropTrailingWs (skipWs l)

/-- The chained cleaning replaces applied when a direct parse fails. -/
def cleanSteps (l : JStr) : JStr :=
  jsTrim (normEnd (normStart (stripTrailFence (stripFencePlain (stripFenceJson l)))))

/-- cleanOpenAIResponse: chat-completion paths are parsed directly (a failure
propagates uncaught); other paths try a direct parse, then the cleaning
pipeline, and fail with the cleaning error otherwise. -/
def cleanOpenAIResponse (raw : JStr) (path : JStr) : Except CleanErr Json :=
  if includesSub chatCompletionsKey path then
    match jsonParse raw with
    | some v => .ok v
    | none => .error .chatParse
  else
    match jsonParse raw with
    | some v => .ok v
    | none =>
      match jsonParse (cleanSteps raw) with
      | some v => .ok v
      | none => .error .cleanFail

def msgInvalidChat : JStr :=
  "Invalid response structure: missing required fields for chat completion".toList
def msgInvalidMessage : JStr :=
  "Invalid response structure: message missing required fields".toList
def msgInvalidPlanStructure : JStr := "Invalid plan structure: missing required fields".toList
def msgSyntaxError : JStr := "SyntaxError".toList
def msgInvalidPlanFormat (inner : JStr) : JStr := "Invalid plan format: ".toList ++ inner

/-- The per-choice plan-content check: parse the message content (as-is when it
is object-typed, else JSON.parse of its string form) and require truthy name,
description and days fields — days is hardcoded regardless of endpoint. Any
inner failure is rewrapped as an invalid-plan-format error. -/
def planParseCheck (content : Json) : Except JStr Unit :=
  match (if isObjectType content then some content else jsonParse (jsToString content)) with
  | none => .error (msgInvalidPlanFormat msgSyntaxError)
  | some parsed =>
    if ¬ truthyOpt (getField parsed nameKey) ∨ ¬ truthyOpt (getField parsed descriptionKey) ∨
        ¬ truthyOpt (getField parsed daysKey) then
      .error (msgInvalidPlanFormat msgInvalidPlanStructure)
    else .ok ()

def validateChoice (planCheck : Bool) (choice : Json) : Except JStr Unit :=
  match getField choice messageKey with
  | none => .error msgInvalidMessage
  | some m =>
    if ¬ truthy m then .error msgInvalidMessage
    else if ¬ truthyOpt (getField m contentKey) then .error msgInvalidMessage
    else if ¬ truthyOpt (getField m roleKey) then .error msgInvalidMessage
    else if planCheck then
      match getField m contentKey with
      | some content => planParseCheck content
      | none => .error msgInvalidMessage
    else .ok ()

def validateChoices (planCheck : Bool) : JsonArr → Except JStr Unit
  | .nil => .ok ()
  | .cons c t =>
    match validateChoice planCheck c with
    | .error e => .error e
    | .ok _ => validateChoices planCheck t

/-- validateResponseStructure: only paths containing the chat-completions
marker are validated at all; each choice needs a message with truthy content
and role, and paths also containing a plan marker get the plan-content check. -/
def validateResponseStructure (response : Json) (path : JStr) : Except JStr Bool :=
  if includesSub chatCompletionsKey path then
    if ¬ truthyOpt (getField response idKey) ∨ ¬ truthyOpt (getField response choicesKey) ∨
        ¬ isArrayOpt (getField response choicesKey) then
      .error msgInvalidChat
    else
      match getField response choicesKey with
      | some (.arr xs) =>
        match validateChoices
            (includesSub workoutPlanKey path || includesSub mealPlanKey path) xs with
        | .error e => .error e
        | .ok _ => .ok true
      | _ => .error msgInvalidChat
  else .ok true

structure LogEntry where
  originalText : JStr
  cleanedText : JStr
deriving DecidableEq

inductive SJErr where
  | emptyText                    -- 'Empty response received from OpenAI'
  | cleanErr (e : CleanErr)      -- rethrown by the second cleanOpenAIResponse call in the catch
  | substringTypeError           -- .substring called on a non-string cleaned value
  | invalidFormat (inner : JStr) -- 'Invalid JSON format returned from OpenAI: ...'
deriving DecidableEq

def MAX_LOG_LENGTH : Nat := 1000

/-- The catch block of safeJsonParse: building the log payload calls
cleanOpenAIResponse(text, path) a second time and invokes .substring on its
result, so the log entry is only emitted (and the intended invalid-format
error only thrown) when the cleaned value is a string; otherwise the payload
evaluation itself throws and nothing is logged. `cleaned` is the (deterministic)
result of that second cleaning call. -/
def sjCatch (text : JStr) (errMsg : JStr) (cleaned : Json) :
    List LogEntry × Except SJErr Json :=
  match cleaned with
  | .str s =>
    ([⟨text.take MAX_LOG_LENGTH, s.take MAX_LOG_LENGTH⟩], .error (.invalidFormat errMsg))
  | _ => ([], .error .substringTypeError)

/-- safeJsonParse, returning the emitted log entries alongside the result. -/
def safeJsonParse (text : JStr) (path : JStr) : List LogEntry × Except SJErr Json :=
  if text = [] then ([], .error .emptyText)
  else
    match cleanOpenAIResponse text path with
    | .error e => ([], .error (.cleanErr e))
    | .ok cleaned =>
      if ¬ (isObjectType cleaned ∧ ¬ cleaned = .null) then
        sjCatch text ("Parsed response is not a valid object".toList) cleaned
      else
        match validateResponseStructure cleaned path with
        | .error m => sjCatch text m cleaned
        | .ok _ => ([], .ok cleaned)

/-! The endpoint translator. -/

def lastSegment (l : JStr) : JStr := (l.reverse.takeWhile (fun c => ¬ c = '/')).reverse

def workoutSystemPrompt : JStr :=
  ("You are a professional fitness trainer. Create detailed, structured workout plans " ++
   "that include warmup, exercises, and cooldown. Always return responses in valid " ++
   "JSON format with name, description, and days fields.").toList

def workoutUserPrompt (prompt : JStr) : JStr :=
  "Create a workout plan with the following requirements: ".toList ++ prompt ++
    (". Return the response as a JSON object with fields: name (string), " ++
     "description (string), and days (array of workout days).").toList

def mealSystemPrompt : JStr :=
  ("You are a professional nutritionist. Create detailed, structured meal plans that " ++
   "are healthy and balanced. Always return responses in valid JSON format with " ++
   "name, description, and meals fields.").toList

def mealUserPrompt (prompt : JStr) : JStr :=
  "Create a meal plan with the following requirements: ".toList ++ prompt ++
    (". Return the response as a JSON object with fields: name (string), " ++
     "description (string), and meals (array of meals).").toList

structure SpecialPrompt where
  system : JStr
  user : JStr → JStr

/-- The SPECIAL_PROMPTS lookup table. -/
def specialPrompt (endpoint : JStr) : Option SpecialPrompt :=
  if endpoint = workoutPlanKey then some ⟨workoutSystemPrompt, workoutUserPrompt⟩
  else if endpoint = mealPlanKey then some ⟨mealSystemPrompt, mealUserPrompt⟩
  else none

structure ChatMessage where
  role : JStr
  content : JStr
deriving DecidableEq

/-- The canonical chat-completion request body built by the translator.
`temperature` is the exact rational 0.7; `maxTokens` keeps whatever truthy
value the caller supplied (or the numeric default 2000). -/
structure ChatBody where
  model : JStr
  messages : List ChatMessage
  temperature : ℚ
  maxTokens : Json
  responseFormatType : JStr
deriving DecidableEq

inductive ConvResult where
  | passthrough (path : JStr) (body : Json)
  | chat (path : JStr) (body : ChatBody)

def defaultPlanPrompt : JStr := "Create a general plan".toList

/-- `body.prompt || 'Create a general plan'` coerced to a string. -/
def promptOf (body : Json) : JStr :=
  match getField body promptKey with
  | some v => if truthy v then jsToString v else defaultPlanPrompt
  | none => defaultPlanPrompt

/-- `body.max_tokens || 2000`. -/
def maxTokensOf (body : Json) : Json :=
  match getField body maxTokensKey with
  | some v => if truthy v then v else .num 2000
  | none => .num 2000

/-- convertToChatCompletion: identity on paths whose last segment has no
special prompt; otherwise the canonical chat body. -/
def convertToChatCompletion (path : JStr) (body : Json) : ConvResult :=
  match specialPrompt (lastSegment path) with
  | none => .passthrough path body
  | some sp =>
    .chat chatCompletionsKey
      { model := "gpt-3.5-turbo".toList
        messages := [⟨"system".toList, sp.system⟩, ⟨"user".toList, sp.user (promptOf body)⟩]
        temperature := 7 / 10
        maxTokens := maxTokensOf body
        responseFormatType := "json_object".toList }

def transErrMsg : JStr := "Failed to parse special endpoint response".toList

/-- transformResponse: passthrough for non-special endpoints and for responses
with no (truthy) first choice; otherwise extract the first choice's message
content (as-is when object-typed, else JSON.parse of its string form); any
failure inside the try block becomes the translation error. -/
def transformResponse (path : JStr) (response : Json) : Except JStr Json :=
  match specialPrompt (lastSegment path) with
  | none => .ok response
  | some _ =>
    match getField response choicesKey with
    | none => .ok response
    | some chs =>
      if ¬ truthy chs then .ok response
      else
        match jsIndex0 chs with
        | none => .ok response
        | some c0 =>
          if ¬ truthy c0 then .ok response
          else
            match getField c0 messageKey with
            | none => .error transErrMsg
            | some m =>
              match getField m contentKey with
              | none => .error transErrMsg
              | some content =>
                if isObjectType content then .ok content
                else
                  match jsonParse (jsToString content) with
                  | some v => .ok v
                  | none => .error transErrMsg

/-! Route-level machinery of the combined variant: the custom JSON body
parser middleware and the catch-all proxy route. -/

structure Write3 where
  status : Nat
  body : Json
deriving DecidableEq

def parseErrorBody (errMsg : JStr) : Json :=
  .obj (.cons ("error".toList)
    (.obj (.cons ("type".toList) (.str ("parse_error".toList))
      (.cons ("message".toList) (.str ("Invalid JSON in request body".toList))
        (.cons ("details".toList) (.str errMsg) .nil))))
    .nil)

def internalErrorBody (msg : JStr) : Json :=
  .obj (.cons ("error".toList)
    (.obj (.cons ("type".toList) (.str ("internal_error".toList))
      (.cons ("message".toList) (.str msg) .nil)))
    .nil)

/-- The custom JSON parser middleware: empty body passes through, a parse
failure writes a 400 parse_error response. -/
def jsonParserMiddleware (raw : JStr) : Except Write3 (Option Json) :=
  if raw = [] then .ok none
  else
    match jsonParse raw with
    | some v => .ok (some v)
    | none => .error ⟨400, parseErrorBody msgSyntaxError⟩

structure PipelineResult where
  sentBody : Option JStr
  write : Write3
deriving DecidableEq

/-- The catch-all route: forwards the stringified request body upstream and
returns the upstream's JSON reply via res.json (status stays 200); any error
becomes a 500 internal_error. No translation, sanitization or validation
function appears on this path. -/
def catchAllRoute (reqBody : Json) (upstream : JStr → Except JStr (Nat × Json)) :
    PipelineResult :=
  match upstream (serJson reqBody) with
  | .ok (_st, data) => ⟨some (serJson reqBody), ⟨200, data⟩⟩
  | .error msg => ⟨some (serJson reqBody), ⟨500, internalErrorBody msg⟩⟩

/-- The whole request pipeline of the combined variant: JSON parser
middleware, then the catch-all route (an empty body is forwarded empty). -/
def handlePart3 (rawBody : JStr) (upstream : JStr → Except JStr (Nat × Json)) :
    PipelineResult :=
  match jsonParserMiddleware rawBody with
  | .error w => ⟨none, w⟩
  | .ok none =>
    match upstream [] with
    | .ok (_st, data) => ⟨none, ⟨200, data⟩⟩
    | .error msg => ⟨none, ⟨500, internalErrorBody msg⟩⟩
  | .ok (some b) => catchAllRoute b upstream

/-- The choices fragment of the repository's own test validator
(test-proxy.js): rejects a missing array and an empty choices array. -/
def testValidateChoices (data : Json) : Except JStr Unit :=
  match getField data choicesKey with
  | none => .ok ()
  | some (.arr .nil) => .error ("Choices array cannot be empty".toList)
  | some (.arr _) => .ok ()
  | some _ => .error ("Choices field must be an array".toList)

/-! Embedding of the abort-variant proxy (request tracking, server-level
response timeout, abort-timer bounded fetch, success / timeout / proxy-error
writes). -/

def TIMEOUT_MS : Nat := 120000
def TIMEOUT_SECONDS : Nat := TIMEOUT_MS / 1000

structure ErrorBody where
  message : JStr
  errType : JStr
  code : JStr
  details : JStr
  requestId : JStr
deriving DecidableEq

def timeoutDetails : JStr :=
  ("Request took longer than " ++ toString TIMEOUT_SECONDS ++ " seconds to complete").toList

def serverTimeoutBody (requestId : JStr) : ErrorBody :=
  { message := "Server response timeout reached".toList
    errType := "timeout_error".toList
    code := "timeout_error".toList
    details := timeoutDetails
    requestId := requestId }

def abortTimeoutBody (requestId : JStr) : ErrorBody :=
  { message := "OpenAI request timeout reached".toList
    errType := "timeout_error".toList
    code := "timeout_error".toList
    details := timeoutDetails
    requestId := requestId }

def proxyErrorBody (requestId : JStr) (errMsg : JStr) : ErrorBody :=
  { message := "Failed to process OpenAI request".toList
    errType := "proxy_error".toList
    code := "proxy_error".toList
    details := errMsg
    requestId := requestId }

inductive ResponseBody where
  | success (data : Json)
  | failure (e : ErrorBody)
deriving DecidableEq

structure Write where
  status : Nat
  body : ResponseBody
deriving DecidableEq

inductive FetchOutcome where
  | ok (status : Nat) (data : Json)
  | errAbort
  | errOther (msg : JStr)
deriving DecidableEq

/-- One request's timing schedule: when the response-timeout middleware armed
its timer, when the handler armed the abort timer (middleware runs first), and
when (if ever) the upstream fetch would settle on its own. -/
structure Schedule where
  serverArm : Nat
  handlerArm : Nat
  upstream : Option (Nat × FetchOutcome)
  armLe : serverArm ≤ handlerArm

/-- When and how the fetch settles: at its own resolution when that happens
before the abort timer fires, else with an AbortError at the abort deadline. -/
def fetchSettle (s : Schedule) : Nat × FetchOutcome :=
  match s.upstream with
  | none => (s.handlerArm + TIMEOUT_MS, .errAbort)
  | some (t, r) => if t < s.handlerArm + TIMEOUT_MS then (t, r) else
      (s.handlerArm + TIMEOUT_MS, .errAbort)

/-- The write performed by the route handler once the fetch settles: success
data with the upstream status, a 504 timeout body on AbortError, a 500 proxy
body otherwise. The handler never checks whether a response was already
written. -/
def handlerWrite (requestId : JStr) (o : FetchOutcome) : Write :=
  match o with
  | .ok st d => ⟨st, .success d⟩
  | .errAbort => ⟨504, .failure (abortTimeoutBody requestId)⟩
  | .errOther m => ⟨500, .failure (proxyErrorBody requestId m)⟩

/-- The server-level response timeout fires when its deadline passes before
the handler has written (the timer is implicitly cancelled by a completed
response — Node semantics, the code installs no guard of its own). -/
def serverTimerFires (s : Schedule) : Bool :=
  decide (s.serverArm + TIMEOUT_MS < (fetchSettle s).1)

/-- All response writes attempted for one request of the abort-variant proxy,
in time order: the 504 of the response-timeout middleware when it fires first,
then the handler's unconditional write when the fetch settles. -/
def writes (requestId : JStr) (s : Schedule) : List Write :=
  (if serverTimerFires s then [⟨504, .failure (serverTimeoutBody requestId)⟩] else [])
    ++ [handlerWrite requestId (fetchSettle s).2]

/-- Elapsed duration recorded by the handler's timeout log: settle time minus
the request start time (set by the tracking middleware when it armed). -/
def abortDurationMs (s : Schedule) : Nat := (fetchSettle s).1 - s.serverArm

/-- The data object of the AbortError branch's TIMEOUT log entry:
duration and configured timeout, as strings. -/
def abortLogData (durationMs : Nat) : JStr × JStr :=
  (natDigits durationMs ++ "ms".toList, natDigits TIMEOUT_SECONDS ++ ['s'])

/-! Concrete inputs used by the claim theorems. -/

def sampleRequestId : JStr := "req-1".toList

/-- A request whose upstream fetch never resolves: the tracking/timeout
middleware runs at t = 0, the route handler arms the abort timer at t = 1. -/
def hangingSchedule : Schedule := ⟨0, 1, none, by omega⟩

def emptyChoicesJson : Json := .obj (.cons choicesKey (.arr .nil) .nil)

def emptyIdChoicesBody : Json :=
  .obj (.cons idKey (.str ['x']) (.cons choicesKey (.arr .nil) .nil))

def minimalMessage : Json :=
  .obj (.cons roleKey (.str "assistant".toList) (.cons contentKey (.str "hi".toList) .nil))

def minimalChatBody : Json :=
  .obj (.cons idKey (.str ['x'])
    (.cons choicesKey (.arr (.cons (.obj (.cons messageKey minimalMessage .nil)) .nil)) .nil))

def noIdBody : Json :=
  .obj (.cons choicesKey (.arr (.cons (.obj (.cons messageKey minimalMessage .nil)) .nil)) .nil)

def noContentMessage : Json := .obj (.cons roleKey (.str "assistant".toList) .nil)

def noContentBody : Json :=
  .obj (.cons idKey (.str ['x'])
    (.cons choicesKey (.arr (.cons (.obj (.cons messageKey noContentMessage .nil)) .nil)) .nil))

/-- A path containing both the chat-completions marker and the meal-plan
marker, so the validator's plan-content branch runs for a meal plan. -/
def mealChatPath : JStr := "chat/completions/meal-plan".toList

def planContentWithMeals : Json :=
  .obj (.cons nameKey (.str ['n'])
    (.cons descriptionKey (.str ['d'])
      (.cons mealsKey (.arr (.cons (.num 1) .nil)) .nil)))

def planContentWithDays : Json :=
  .obj (.cons nameKey (.str ['n'])
    (.cons descriptionKey (.str ['d'])
      (.cons daysKey (.arr (.cons (.num 1) .nil)) .nil)))

/-- A chat-completion envelope whose single choice carries the given content. -/
def chatBodyWith (content : Json) : Json :=
  .obj (.cons idKey (.str ['x'])
    (.cons choicesKey
      (.arr (.cons (.obj (.cons messageKey
        (.obj (.cons roleKey (.str ['a']) (.cons contentKey content .nil))) .nil)) .nil))
      .nil))

/-- Fence wrap with a newline after the language tag, before the closing
fence, and after the closing fence (surrounding whitespace). -/
def fencedNl (s : JStr) : JStr :=
  [backtick, backtick, backtick, 'j', 's', 'o', 'n', Char.ofNat 10] ++ s ++
    [Char.ofNat 10, backtick, backtick, backtick, Char.ofNat 10]

def unparseableText : JStr := "not json at all".toList

/-- Field lookup inside the `error` wrapper of an error body. -/
def errorField (body : Json) (key : JStr) : Option Json :=
  match getField body ("error".toList) with
  | some e => getField e key
  | none => none

theorem dropWhile_append_all {p : Char → Bool} {a : JStr} (h : ∀ c ∈ a, p c = true)
    (b : JStr) : (a ++ b).dropWhile p = b.dropWhile p := by
  induction a with
  | nil => rfl
  | cons c t ih =>
    rw [List.cons_append, List.dropWhile_cons, if_pos (h c (by simp))]
    exact ih (fun x hx => h x (by simp [hx]))

theorem skipWs_cons_of_not {c : Char} (h : jsWs c = false) (t : JStr) :
    skipWs (c :: t) = c :: t := by
  rw [skipWs, List.dropWhile_cons, if_neg (by simp [h])]

theorem skipWs_nil : skipWs ([] : JStr) = [] := rfl

theorem skipWs_append_ws {ws : JStr} (h : ∀ c ∈ ws, jsWs c = true) (l : JStr) :
    skipWs (ws ++ l) = skipWs l :=
  dropWhile_append_all h l

theorem dropTrailingWs_append_ws {ws : JStr} (h : ∀ c ∈ ws, jsWs c = true) (l : JStr) :
    dropTrailingWs (l ++ ws) = dropTrailingWs l := by
  rw [dropTrailingWs, dropTrailingWs, List.reverse_append,
    dropWhile_append_all (fun c hc => h c (List.mem_reverse.mp hc))]

theorem dropTrailingWs_of_last {l : JStr} {i : JStr} {c : Char} (hl : l = i ++ [c])
    (hc : jsWs c = false) : dropTrailingWs l = l := by
  subst hl
  rw [dropTrailingWs, List.reverse_append, List.reverse_singleton, List.singleton_append,
    List.dropWhile_cons, if_neg (by simp [hc])]
  rw [show (c :: i.reverse) = (i ++ [c]).reverse by rw [List.reverse_append]; rfl,
    List.reverse_reverse]

theorem digitVal_digitChar {d : Nat} (h : d < 10) : digitVal (digitChar d) = some d := by
  interval_cases d <;> decide

theorem digitChar_facts {d : Nat} (h : d < 10) :
    digitChar d ≠ '-' ∧ digitChar d ≠ 'n' ∧ digitChar d ≠ 't' ∧ digitChar d ≠ 'f' ∧
      digitChar d ≠ '"' ∧ digitChar d ≠ '[' ∧ digitChar d ≠ lbrace ∧ digitChar d ≠ ']' ∧
      digitChar d ≠ ',' ∧ digitChar d ≠ rbrace ∧ jsWs (digitChar d) = false := by
  interval_cases d <;> decide

theorem natDigitValsAux_congr : ∀ (f1 f2 n : Nat), n < f1 → n < f2 →
    natDigitValsAux f1 n = natDigitValsAux f2 n := by
  intro f1
  induction f1 using Nat.strong_induction_on with
  | _ f1 ih =>
    intro f2 n h1 h2
    obtain ⟨a, rfl⟩ : ∃ a, f1 = a + 1 := ⟨f1 - 1, by omega⟩
    obtain ⟨b, rfl⟩ : ∃ b, f2 = b + 1 := ⟨f2 - 1, by omega⟩
    rw [natDigitValsAux, natDigitValsAux]
    split
    · rfl
    · rw [ih a (by omega) b (n / 10) (by omega) (by omega)]

theorem natDigitVals_eq (n : Nat) :
    natDigitVals n = if n < 10 then [n] else natDigitVals (n / 10) ++ [n % 10] := by
  rw [natDigitVals, natDigitValsAux]
  split
  · rfl
  · rw [natDigitVals, natDigitValsAux_congr n (n / 10 + 1) (n / 10) (by omega) (by omega)]

theorem natDigitVals_lt (n : Nat) : ∀ d ∈ natDigitVals n, d < 10 := by
  induction n using Nat.strong_induction_on with
  | _ n ih =>
    rw [natDigitVals_eq]
    split
    · intro d hd
      simp only [List.mem_singleton] at hd
      omega
    · intro d hd
      have hrec := ih (n / 10) (by omega)
      rcases List.mem_append.mp hd with h | h
      · exact hrec d h
      · simp only [List.mem_singleton] at h
        omega

theorem natDigitVals_ne_nil (n : Nat) : natDigitVals n ≠ [] := by
  rw [natDigitVals_eq]
  split
  · simp
  · simp

theorem digitsToNat_append_single (ds : List Nat) (d : Nat) :
    digitsToNat (ds ++ [d]) = 10 * digitsToNat ds + d := by
  simp only [digitsToNat, List.foldl_append, List.foldl_cons, List.foldl_nil]
  ring

theorem digitsToNat_natDigitVals (n : Nat) : digitsToNat (natDigitVals n) = n := by
  induction n using Nat.strong_induction_on with
  | _ n ih =>
    rw [natDigitVals_eq]
    split
    · simp [digitsToNat]
    · rw [digitsToNat_append_single, ih (n / 10) (by omega)]
      omega

theorem takeDigits_nonDigit {l : JStr} (h : noDigitHead l = true) : takeDigits l = ([], l) := by
  cases l with
  | nil => rfl
  | cons c t =>
    have : digitVal c = none := by
      simp only [noDigitHead, Option.isNone_iff_eq_none] at h
      exact h
    simp [takeDigits, this]

theorem takeDigits_digits {ds : List Nat} (h : ∀ d ∈ ds, d < 10) {rest : JStr}
    (hr : noDigitHead rest = true) : takeDigits (ds.map digitChar ++ rest) = (ds, rest) := by
  induction ds with
  | nil => simpa using takeDigits_nonDigit hr
  | cons d t ih =>
    rw [List.map_cons, List.cons_append, takeDigits, digitVal_digitChar (h d (by simp))]
    simp only [ih (fun x hx => h x (by simp [hx]))]

theorem parseNum_ser (n : Int) {rest : JStr} (hr : noDigitHead rest = true) :
    parseNum (intChars n ++ rest) = some (n, rest) := by
  by_cases hn : n < 0
  · obtain ⟨v0, vt, hv⟩ := List.exists_cons_of_ne_nil (natDigitVals_ne_nil n.natAbs)
    rw [intChars, if_pos hn, natDigits, List.cons_append, parseNum, if_pos rfl,
      takeDigits_digits (natDigitVals_lt _) hr, hv]
    show some (-(digitsToNat (v0 :: vt) : Int), rest) = some (n, rest)
    rw [← hv, digitsToNat_natDigitVals]
    have hval : -((n.natAbs : Nat) : Int) = n := by omega
    rw [hval]
  · obtain ⟨v0, vt, hv⟩ := List.exists_cons_of_ne_nil (natDigitVals_ne_nil n.toNat)
    have h0 : v0 < 10 := natDigitVals_lt _ v0 (by rw [hv]; simp)
    rw [intChars, if_neg hn, natDigits, hv, List.map_cons, List.cons_append, parseNum,
      if_neg (digitChar_facts h0).1, ← List.cons_append, ← List.map_cons, ← hv,
      takeDigits_digits (natDigitVals_lt _) hr, hv]
    show some ((digitsToNat (v0 :: vt) : Int), rest) = some (n, rest)
    rw [← hv, digitsToNat_natDigitVals]
    have hval : ((n.toNat : Nat) : Int) = n := by omega
    rw [hval]

theorem hexVal_hexDigitChar {m : Nat} (h : m < 16) : hexVal (hexDigitChar m) = some m := by
  interval_cases m <;> decide

theorem parseStrBody_quote (t : JStr) : parseStrBody ('"' :: t) = some ([], t) := by
  conv_lhs => rw [parseStrBody.eq_def]
  simp

theorem parseStrBody_raw {c : Char} (h1 : ¬ c = '"') (h2 : ¬ c = bslash) (t : JStr) :
    parseStrBody (c :: t) = (parseStrBody t).map (fun p => (c :: p.1, p.2)) := by
  conv_lhs => rw [parseStrBody.eq_def]
  simp only [if_neg h1, if_neg h2]

theorem parseStrBody_esc {e d : Char} (he : escCode e = some d) (hu : ¬ e = 'u') (t : JStr) :
    parseStrBody (bslash :: e :: t) = (parseStrBody t).map (fun p => (d :: p.1, p.2)) := by
  conv_lhs => rw [parseStrBody.eq_def]
  simp only [if_neg (show ¬ bslash = '"' by decide), if_pos (show bslash = bslash from rfl),
    if_neg hu, he]
  simp

theorem parseStrBody_hex {h3 h4 : Char} {g d : Nat} (hg : hexVal h3 = some g)
    (hd : hexVal h4 = some d) (t : JStr) :
    parseStrBody (bslash :: 'u' :: '0' :: '0' :: h3 :: h4 :: t) =
      (parseStrBody t).map
        (fun p => (Char.ofNat (((0 * 16 + 0) * 16 + g) * 16 + d) :: p.1, p.2)) := by
  conv_lhs => rw [parseStrBody.eq_def]
  simp only [if_neg (show ¬ bslash = '"' by decide), if_pos (show bslash = bslash from rfl),
    if_pos (show ('u' : Char) = 'u' from rfl), show hexVal '0' = some 0 by decide, hg, hd]
  simp

theorem parseStrBody_escape (s : JStr) (rest : JStr) :
    parseStrBody (escape s ++ '"' :: rest) = some (s, rest) := by
  induction s with
  | nil => rw [escape, List.nil_append, parseStrBody_quote]
  | cons c cs ih =>
    rw [escape, List.append_assoc]
    by_cases h1 : c = '"'
    · subst h1
      rw [show escChar '"' = [bslash, '"'] from by decide, List.cons_append, List.cons_append,
        List.nil_append, parseStrBody_esc (show escCode '"' = some '"' by decide) (by decide),
        ih]
      rfl
    by_cases h2 : c = bslash
    · subst h2
      rw [show escChar bslash = [bslash, bslash] from by decide, List.cons_append,
        List.cons_append, List.nil_append,
        parseStrBody_esc (show escCode bslash = some bslash by decide) (by decide), ih]
      rfl
    by_cases h3 : c.toNat = 8
    · have hc : c = Char.ofNat 8 := by rw [← Char.ofNat_toNat c, h3]
      rw [escChar, if_neg h1, if_neg h2, if_pos h3, List.cons_append, List.cons_append,
        List.nil_append,
        parseStrBody_esc (show escCode 'b' = some (Char.ofNat 8) by decide) (by decide), ih,
        ← hc]
      rfl
    by_cases h4 : c.toNat = 9
    · have hc : c = Char.ofNat 9 := by rw [← Char.ofNat_toNat c, h4]
      rw [escChar, if_neg h1, if_neg h2, if_neg h3, if_pos h4, List.cons_append,
        List.cons_append, List.nil_append,
        parseStrBody_esc (show escCode 't' = some (Char.ofNat 9) by decide) (by decide), ih,
        ← hc]
      rfl
    by_cases h5 : c.toNat = 10
    · have hc : c = Char.ofNat 10 := by rw [← Char.ofNat_toNat c, h5]
      rw [escChar, if_neg h1, if_neg h2, if_neg h3, if_neg h4, if_pos h5, List.cons_append,
        List.cons_append, List.nil_append,
        parseStrBody_esc (show escCode 'n' = some (Char.ofNat 10) by decide) (by decide), ih,
        ← hc]
      rfl
    by_cases h6 : c.toNat = 12
    · have hc : c = Char.ofNat 12 := by rw [← Char.ofNat_toNat c, h6]
      rw [escChar, if_neg h1, if_neg h2, if_neg h3, if_neg h4, if_neg h5, if_pos h6,
        List.cons_append, List.cons_append, List.nil_append,
        parseStrBody_esc (show escCode 'f' = some (Char.ofNat 12) by decide) (by decide), ih,
        ← hc]
      rfl
    by_cases h7 : c.toNat = 13
    · have hc : c = Char.ofNat 13 := by rw [← Char.ofNat_toNat c, h7]
      rw [escChar, if_neg h1, if_neg h2, if_neg h3, if_neg h4, if_neg h5, if_neg h6,
        if_pos h7, List.cons_append, List.cons_append, List.nil_append,
        parseStrBody_esc (show escCode 'r' = some (Char.ofNat 13) by decide) (by decide), ih,
        ← hc]
      rfl
    by_cases h8 : c.toNat < 32
    · rw [escChar, if_neg h1, if_neg h2, if_neg h3, if_neg h4, if_neg h5, if_neg h6,
        if_neg h7, if_pos h8, uEsc]
      simp only [List.cons_append, List.nil_append]
      rw [parseStrBody_hex (hexVal_hexDigitChar (show c.toNat / 16 < 16 by omega))
        (hexVal_hexDigitChar (show c.toNat % 16 < 16 by omega)), ih]
      have harith : ((0 * 16 + 0) * 16 + c.toNat / 16) * 16 + c.toNat % 16 = c.toNat := by
        omega
      rw [harith, Char.ofNat_toNat]
      rfl
    · rw [escChar, if_neg h1, if_neg h2, if_neg h3, if_neg h4, if_neg h5, if_neg h6,
        if_neg h7, if_neg h8, List.singleton_append, parseStrBody_raw h1 h2, ih]
      rfl

theorem expectLit_append (lit t : JStr) (v : Json) : expectLit lit (lit ++ t) v = some (v, t) := by
  rw [expectLit, if_pos, List.drop_left]
  rw [List.isPrefixOf_iff_prefix]
  exact List.prefix_append lit t

theorem parseVal_cons (fuel : Nat) {l l2 : JStr} {c : Char} (hskip : skipWs l = c :: l2) :
    parseVal (fuel + 1) l =
      if c = 'n' then expectLit ['u', 'l', 'l'] l2 .null
      else if c = 't' then expectLit ['r', 'u', 'e'] l2 (.bool true)
      else if c = 'f' then expectLit ['a', 'l', 's', 'e'] l2 (.bool false)
      else if c = '"' then (parseStrBody l2).map (fun p => (.str p.1, p.2))
      else if c = '[' then parseArrItems fuel l2
      else if c = lbrace then parseObjItems fuel l2
      else (parseNum (c :: l2)).map (fun p => (.num p.1, p.2)) := by
  rw [parseVal.eq_2, hskip]

theorem parseArrItems_cons (fuel : Nat) {l l2 : JStr} {c : Char} (hskip : skipWs l = c :: l2) :
    parseArrItems (fuel + 1) l =
      if c = ']' then some (.arr .nil, l2)
      else
        match parseVal fuel (c :: l2) with
        | none => none
        | some (v, r) =>
          match parseArrRest fuel r with
          | none => none
          | some (t, r2) => some (.arr (.cons v t), r2) := by
  rw [parseArrItems.eq_2, hskip]

theorem parseArrRest_cons (fuel : Nat) {l l2 : JStr} {c : Char} (hskip : skipWs l = c :: l2) :
    parseArrRest (fuel + 1) l =
      if c = ']' then some (.nil, l2)
      else if c = ',' then
        match parseVal fuel l2 with
        | none => none
        | some (v, r) =>
          match parseArrRest fuel r with
          | none => none
          | some (t, r2) => some (.cons v t, r2)
      else none := by
  rw [parseArrRest.eq_2, hskip]

theorem parseObjItems_cons (fuel : Nat) {l l2 : JStr} {c : Char} (hskip : skipWs l = c :: l2) :
    parseObjItems (fuel + 1) l =
      if c = rbrace then some (.obj .nil, l2)
      else if c = '"' then
        match parseStrBody l2 with
        | none => none
        | some (k, r) =>
          match skipWs r with
          | [] => none
          | c2 :: r2 =>
            if c2 = ':' then
              match parseVal fuel r2 with
              | none => none
              | some (v, r3) =>
                match parseObjRest fuel r3 with
                | none => none
                | some (t, r4) => some (.obj (.cons k v t), r4)
            else none
      else none := by
  rw [parseObjItems.eq_2, hskip]

theorem parseObjRest_cons (fuel : Nat) {l l2 : JStr} {c : Char} (hskip : skipWs l = c :: l2) :
    parseObjRest (fuel + 1) l =
      if c = rbrace then some (.nil, l2)
      else if c = ',' then
        match skipWs l2 with
        | [] => none
        | c1 :: r1 =>
          if c1 = '"' then
            match parseStrBody r1 with
            | none => none
            | some (k, r) =>
              match skipWs r with
              | [] => none
              | c2 :: r2 =>
                if c2 = ':' then
                  match parseVal fuel r2 with
                  | none => none
                  | some (v, r3) =>
                    match parseObjRest fuel r3 with
                    | none => none
                    | some (t, r4) => some (.cons k v t, r4)
                else none
          else none
      else none := by
  rw [parseObjRest.eq_2, hskip]

theorem serHead (v : Json) :
    ∃ c l, serJson v = c :: l ∧ jsWs c = false ∧ ¬ c = ']' ∧ ¬ c = ',' ∧ ¬ c = rbrace := by
  cases v with
  | null => exact ⟨'n', _, rfl, by decide, by decide, by decide, by decide⟩
  | bool b =>
    cases b with
    | false => exact ⟨'f', _, rfl, by decide, by decide, by decide, by decide⟩
    | true => exact ⟨'t', _, rfl, by decide, by decide, by decide, by decide⟩
  | num n =>
    by_cases hn : n < 0
    · refine ⟨'-', natDigits n.natAbs, ?_, by decide, by decide, by decide, by decide⟩
      rw [show serJson (.num n) = intChars n from rfl, intChars, if_pos hn]
    · obtain ⟨v0, vt, hv⟩ := List.exists_cons_of_ne_nil (natDigitVals_ne_nil n.toNat)
      have h0 : v0 < 10 := natDigitVals_lt _ v0 (by rw [hv]; simp)
      obtain ⟨-, -, -, -, -, -, -, hne1, hne2, hne3, hws⟩ := digitChar_facts h0
      refine ⟨digitChar v0, vt.map digitChar, ?_, hws, hne1, hne2, hne3⟩
      rw [show serJson (.num n) = intChars n from rfl, intChars, if_neg hn, natDigits, hv,
        List.map_cons]
  | str s => exact ⟨'"', _, rfl, by decide, by decide, by decide, by decide⟩
  | arr xs => exact ⟨'[', serArrBody xs, rfl, by decide, by decide, by decide, by decide⟩
  | obj xs => exact ⟨lbrace, serObjBody xs, rfl, by decide, by decide, by decide, by decide⟩

theorem serJson_len_pos (v : Json) : 1 ≤ (serJson v).length := by
  obtain ⟨c, l, h, -, -, -, -⟩ := serHead v
  rw [h]
  simp

theorem serArrTail_len_pos (t : JsonArr) : 1 ≤ (serArrTail t).length := by
  cases t <;> simp [serArrTail]

theorem serObjTail_len_pos (t : JsonObj) : 1 ≤ (serObjTail t).length := by
  cases t <;> simp [serObjTail]

theorem noDigitHead_serArrTail (t : JsonArr) (rest : JStr) :
    noDigitHead (serArrTail t ++ rest) = true := by
  cases t with
  | nil => rfl
  | cons h t2 => rfl

theorem noDigitHead_serObjTail (t : JsonObj) (rest : JStr) :
    noDigitHead (serObjTail t ++ rest) = true := by
  cases t with
  | nil => rfl
  | cons k v t2 => rfl

mutual
theorem parseVal_ser : ∀ (v : Json) (rest : JStr) (fuel : Nat),
    (serJson v).length + 1 ≤ fuel → noDigitHead rest = true →
    parseVal fuel (serJson v ++ rest) = some (v, rest)
  | .null, rest, fuel, hfuel, _ => by
    obtain ⟨f, rfl⟩ : ∃ f, fuel = f + 1 := ⟨fuel - 1, by omega⟩
    have hskip : skipWs (serJson .null ++ rest) = 'n' :: (['u', 'l', 'l'] ++ rest) := by
      rw [show serJson .null = ['n', 'u', 'l', 'l'] from rfl]
      exact skipWs_cons_of_not (by decide) _
    rw [parseVal_cons f hskip, if_pos rfl, expectLit_append]
  | .bool true, rest, fuel, hfuel, _ => by
    obtain ⟨f, rfl⟩ : ∃ f, fuel = f + 1 := ⟨fuel - 1, by omega⟩
    have hskip : skipWs (serJson (.bool true) ++ rest) = 't' :: (['r', 'u', 'e'] ++ rest) := by
      rw [show serJson (.bool true) = ['t', 'r', 'u', 'e'] from rfl]
      exact skipWs_cons_of_not (by decide) _
    rw [parseVal_cons f hskip, if_neg (by decide), if_pos rfl, expectLit_append]
  | .bool false, rest, fuel, hfuel, _ => by
    obtain ⟨f, rfl⟩ : ∃ f, fuel = f + 1 := ⟨fuel - 1, by omega⟩
    have hskip : skipWs (serJson (.bool false) ++ rest)
        = 'f' :: (['a', 'l', 's', 'e'] ++ rest) := by
      rw [show serJson (.bool false) = ['f', 'a', 'l', 's', 'e'] from rfl]
      exact skipWs_cons_of_not (by decide) _
    rw [parseVal_cons f hskip, if_neg (by decide), if_neg (by decide), if_pos rfl,
      expectLit_append]
  | .num n, rest, fuel, hfuel, hrest => by
    obtain ⟨f, rfl⟩ : ∃ f, fuel = f + 1 := ⟨fuel - 1, by omega⟩
    by_cases hn : n < 0
    · have hser : serJson (.num n) = '-' :: natDigits n.natAbs := by
        rw [show serJson (.num n) = intChars n from rfl, intChars, if_pos hn]
      have hskip : skipWs (serJson (.num n) ++ rest) = '-' :: (natDigits n.natAbs ++ rest) := by
        rw [hser, List.cons_append]
        exact skipWs_cons_of_not (by decide) _
      rw [parseVal_cons f hskip, if_neg (by decide), if_neg (by decide), if_neg (by decide),
        if_neg (by decide), if_neg (by decide), if_neg (by decide)]
      rw [show ('-' :: (natDigits n.natAbs ++ rest)) = intChars n ++ rest by
        rw [intChars, if_pos hn, List.cons_append], parseNum_ser n hrest]
      rfl
    · obtain ⟨v0, vt, hv⟩ := List.exists_cons_of_ne_nil (natDigitVals_ne_nil n.toNat)
      have h0 : v0 < 10 := natDigitVals_lt _ v0 (by rw [hv]; simp)
      obtain ⟨hw1, hw2, hw3, hw4, hw5, hw6, hw7, -, -, -, hws⟩ := digitChar_facts h0
      have hser : serJson (.num n) = digitChar v0 :: vt.map digitChar := by
        rw [show serJson (.num n) = intChars n from rfl, intChars, if_neg hn, natDigits, hv,
          List.map_cons]
      have hskip : skipWs (serJson (.num n) ++ rest)
          = digitChar v0 :: (vt.map digitChar ++ rest) := by
        rw [hser, List.cons_append]
        exact skipWs_cons_of_not hws _
      rw [parseVal_cons f hskip, if_neg hw2, if_neg hw3, if_neg hw4, if_neg hw5, if_neg hw6,
        if_neg hw7]
      rw [show (digitChar v0 :: (vt.map digitChar ++ rest)) = intChars n ++ rest by
        rw [intChars, if_neg hn, natDigits, hv, List.map_cons, List.cons_append],
        parseNum_ser n hrest]
      rfl
  | .str s, rest, fuel, hfuel, _ => by
    obtain ⟨f, rfl⟩ : ∃ f, fuel = f + 1 := ⟨fuel - 1, by omega⟩
    have hskip : skipWs (serJson (.str s) ++ rest) = '"' :: ((escape s ++ ['"']) ++ rest) := by
      rw [show serJson (.str s) = '"' :: (escape s ++ ['"']) from rfl, List.cons_append]
      exact skipWs_cons_of_not (by decide) _
    rw [parseVal_cons f hskip, if_neg (by decide), if_neg (by decide), if_neg (by decide),
      if_pos rfl, List.append_assoc, List.singleton_append, parseStrBody_escape]
    rfl
  | .arr xs, rest, fuel, hfuel, _ => by
    obtain ⟨f, rfl⟩ : ∃ f, fuel = f + 1 := ⟨fuel - 1, by omega⟩
    have hskip : skipWs (serJson (.arr xs) ++ rest) = '[' :: (serArrBody xs ++ rest) := by
      rw [show serJson (.arr xs) = '[' :: serArrBody xs from rfl, List.cons_append]
      exact skipWs_cons_of_not (by decide) _
    rw [parseVal_cons f hskip, if_neg (by decide), if_neg (by decide), if_neg (by decide),
      if_neg (by decide), if_pos rfl]
    refine parseArrItems_ser xs rest f ?_
    rw [show serJson (.arr xs) = '[' :: serArrBody xs from rfl, List.length_cons] at hfuel
    omega
  | .obj xs, rest, fuel, hfuel, _ => by
    obtain ⟨f, rfl⟩ : ∃ f, fuel = f + 1 := ⟨fuel - 1, by omega⟩
    have hskip : skipWs (serJson (.obj xs) ++ rest) = lbrace :: (serObjBody xs ++ rest) := by
      rw [show serJson (.obj xs) = lbrace :: serObjBody xs from rfl, List.cons_append]
      exact skipWs_cons_of_not (by decide) _
    rw [parseVal_cons f hskip, if_neg (by decide), if_neg (by decide), if_neg (by decide),
      if_neg (by decide), if_neg (by decide), if_pos rfl]
    refine parseObjItems_ser xs rest f ?_
    rw [show serJson (.obj xs) = lbrace :: serObjBody xs from rfl, List.length_cons] at hfuel
    omega

theorem parseArrItems_ser : ∀ (xs : JsonArr) (rest : JStr) (fuel : Nat),
    (serArrBody xs).length + 1 ≤ fuel →
    parseArrItems fuel (serArrBody xs ++ rest) = some (.arr xs, rest)
  | .nil, rest, fuel, hfuel => by
    obtain ⟨f, rfl⟩ : ∃ f, fuel = f + 1 := ⟨fuel - 1, by omega⟩
    have hskip : skipWs (serArrBody .nil ++ rest) = ']' :: rest := by
      rw [show serArrBody .nil = [']'] from rfl, List.singleton_append]
      exact skipWs_cons_of_not (by decide) _
    rw [parseArrItems_cons f hskip, if_pos rfl]
  | .cons h t, rest, fuel, hfuel => by
    obtain ⟨f, rfl⟩ : ∃ f, fuel = f + 1 := ⟨fuel - 1, by omega⟩
    obtain ⟨c, l, hser, hws, hne1, hne2, hne3⟩ := serHead h
    have hlen : (serJson h).length + (serArrTail t).length + 1 ≤ f + 1 := by
      rw [show serArrBody (.cons h t) = serJson h ++ serArrTail t from rfl,
        List.length_append] at hfuel
      omega
    have hskip : skipWs (serArrBody (.cons h t) ++ rest)
        = c :: (l ++ (serArrTail t ++ rest)) := by
      rw [show serArrBody (.cons h t) = serJson h ++ serArrTail t from rfl, List.append_assoc,
        hser, List.cons_append]
      exact skipWs_cons_of_not hws _
    rw [parseArrItems_cons f hskip, if_neg hne1]
    have hv : parseVal f (c :: (l ++ (serArrTail t ++ rest)))
        = some (h, serArrTail t ++ rest) := by
      rw [show c :: (l ++ (serArrTail t ++ rest)) = serJson h ++ (serArrTail t ++ rest) by
        rw [hser, List.cons_append]]
      exact parseVal_ser h _ f (by have := serArrTail_len_pos t; omega)
        (noDigitHead_serArrTail t rest)
    rw [hv]
    have hr : parseArrRest f (serArrTail t ++ rest) = some (t, rest) :=
      parseArrRest_ser t rest f (by have := serJson_len_pos h; omega)
    simp only [hr]

theorem parseArrRest_ser : ∀ (xs : JsonArr) (rest : JStr) (fuel : Nat),
    (serArrTail xs).length + 1 ≤ fuel →
    parseArrRest fuel (serArrTail xs ++ rest) = some (xs, rest)
  | .nil, rest, fuel, hfuel => by
    obtain ⟨f, rfl⟩ : ∃ f, fuel = f + 1 := ⟨fuel - 1, by omega⟩
    have hskip : skipWs (serArrTail .nil ++ rest) = ']' :: rest := by
      rw [show serArrTail .nil = [']'] from rfl, List.singleton_append]
      exact skipWs_cons_of_not (by decide) _
    rw [parseArrRest_cons f hskip, if_pos rfl]
  | .cons h t, rest, fuel, hfuel => by
    obtain ⟨f, rfl⟩ : ∃ f, fuel = f + 1 := ⟨fuel - 1, by omega⟩
    have hlen : (serJson h).length + (serArrTail t).length + 2 ≤ f + 1 := by
      rw [show serArrTail (.cons h t) = ',' :: (serJson h ++ serArrTail t) from rfl,
        List.length_cons, List.length_append] at hfuel
      omega
    have hskip : skipWs (serArrTail (.cons h t) ++ rest)
        = ',' :: ((serJson h ++ serArrTail t) ++ rest) := by
      rw [show serArrTail (.cons h t) = ',' :: (serJson h ++ serArrTail t) from rfl,
        List.cons_append]
      exact skipWs_cons_of_not (by decide) _
    rw [parseArrRest_cons f hskip, if_neg (by decide), if_pos rfl]
    have hv : parseVal f ((serJson h ++ serArrTail t) ++ rest)
        = some (h, serArrTail t ++ rest) := by
      rw [List.append_assoc]
      exact parseVal_ser h _ f (by have := serArrTail_len_pos t; omega)
        (noDigitHead_serArrTail t rest)
    rw [hv]
    have hr : parseArrRest f (serArrTail t ++ rest) = some (t, rest) :=
      parseArrRest_ser t rest f (by have := serJson_len_pos h; omega)
    simp only [hr]

theorem parseObjItems_ser : ∀ (xs : JsonObj) (rest : JStr) (fuel : Nat),
    (serObjBody xs).length + 1 ≤ fuel →
    parseObjItems fuel (serObjBody xs ++ rest) = some (.obj xs, rest)
  | .nil, rest, fuel, hfuel => by
    obtain ⟨f, rfl⟩ : ∃ f, fuel = f + 1 := ⟨fuel - 1, by omega⟩
    have hskip : skipWs (serObjBody .nil ++ rest) = rbrace :: rest := by
      rw [show serObjBody .nil = [rbrace] from rfl, List.singleton_append]
      exact skipWs_cons_of_not (by decide) _
    rw [parseObjItems_cons f hskip, if_pos rfl]
  | .cons k v t, rest, fuel, hfuel => by
    obtain ⟨f, rfl⟩ : ∃ f, fuel = f + 1 := ⟨fuel - 1, by omega⟩
    have hlen : (escape k).length + (serJson v).length + (serObjTail t).length + 4 ≤ f + 1 := by
      rw [show serObjBody (.cons k v t)
          = '"' :: (escape k ++ '"' :: ':' :: (serJson v ++ serObjTail t)) from rfl] at hfuel
      simp only [List.length_cons, List.length_append] at hfuel
      omega
    have hskip : skipWs (serObjBody (.cons k v t) ++ rest)
        = '"' :: ((escape k ++ '"' :: ':' :: (serJson v ++ serObjTail t)) ++ rest) := by
      rw [show serObjBody (.cons k v t)
          = '"' :: (escape k ++ '"' :: ':' :: (serJson v ++ serObjTail t)) from rfl,
        List.cons_append]
      exact skipWs_cons_of_not (by decide) _
    rw [parseObjItems_cons f hskip, if_neg (by decide), if_pos rfl]
    have hstr : parseStrBody ((escape k ++ '"' :: ':' :: (serJson v ++ serObjTail t)) ++ rest)
        = some (k, ':' :: ((serJson v ++ serObjTail t) ++ rest)) := by
      rw [List.append_assoc, List.cons_append, List.cons_append]
      exact parseStrBody_escape k _
    rw [hstr]
    have hskip2 : skipWs (':' :: ((serJson v ++ serObjTail t) ++ rest))
        = ':' :: ((serJson v ++ serObjTail t) ++ rest) :=
      skipWs_cons_of_not (by decide) _
    simp only [hskip2, if_pos]
    have hv : parseVal f ((serJson v ++ serObjTail t) ++ rest)
        = some (v, serObjTail t ++ rest) := by
      rw [List.append_assoc]
      exact parseVal_ser v _ f (by have := serObjTail_len_pos t; omega)
        (noDigitHead_serObjTail t rest)
    rw [hv]
    have hr : parseObjRest f (serObjTail t ++ rest) = some (t, rest) :=
      parseObjRest_ser t rest f (by have := serJson_len_pos v; omega)
    simp only [hr]

theorem parseObjRest_ser : ∀ (xs : JsonObj) (rest : JStr) (fuel : Nat),
    (serObjTail xs).length + 1 ≤ fuel →
    parseObjRest fuel (serObjTail xs ++ rest) = some (xs, rest)
  | .nil, rest, fuel, hfuel => by
    obtain ⟨f, rfl⟩ : ∃ f, fuel = f + 1 := ⟨fuel - 1, by omega⟩
    have hskip : skipWs (serObjTail .nil ++ rest) = rbrace :: rest := by
      rw [show serObjTail .nil = [rbrace] from rfl, List.singleton_append]
      exact skipWs_cons_of_not (by decide) _
    rw [parseObjRest_cons f hskip, if_pos rfl]
  | .cons k v t, rest, fuel, hfuel => by
    obtain ⟨f, rfl⟩ : ∃ f, fuel = f + 1 := ⟨fuel - 1, by omega⟩
    have hlen : (escape k).length + (serJson v).length + (serObjTail t).length + 5 ≤ f + 1 := by
      rw [show serObjTail (.cons k v t)
          = ',' :: '"' :: (escape k ++ '"' :: ':' :: (serJson v ++ serObjTail t)) from rfl]
        at hfuel
      simp only [List.length_cons, List.length_append] at hfuel
      omega
    have hskip : skipWs (serObjTail (.cons k v t) ++ rest)
        = ',' :: (('"' :: (escape k ++ '"' :: ':' :: (serJson v ++ serObjTail t))) ++ rest) := by
      rw [show serObjTail (.cons k v t)
          = ',' :: '"' :: (escape k ++ '"' :: ':' :: (serJson v ++ serObjTail t)) from rfl,
        List.cons_append]
      exact skipWs_cons_of_not (by decide) _
    rw [parseObjRest_cons f hskip, if_neg (by decide), if_pos rfl]
    have hskip1 : skipWs (('"' :: (escape k ++ '"' :: ':' :: (serJson v ++ serObjTail t))) ++ rest)
        = '"' :: ((escape k ++ '"' :: ':' :: (serJson v ++ serObjTail t)) ++ rest) := by
      rw [List.cons_append]
      exact skipWs_cons_of_not (by decide) _
    simp only [hskip1, if_pos]
    have hstr : parseStrBody ((escape k ++ '"' :: ':' :: (serJson v ++ serObjTail t)) ++ rest)
        = some (k, ':' :: ((serJson v ++ serObjTail t) ++ rest)) := by
      rw [List.append_assoc, List.cons_append, List.cons_append]
      exact parseStrBody_escape k _
    rw [hstr]
    have hskip2 : skipWs (':' :: ((serJson v ++ serObjTail t) ++ rest))
        = ':' :: ((serJson v ++ serObjTail t) ++ rest) :=
      skipWs_cons_of_not (by decide) _
    simp only [hskip2, if_pos]
    have hv : parseVal f ((serJson v ++ serObjTail t) ++ rest)
        = some (v, serObjTail t ++ rest) := by
      rw [List.append_assoc]
      exact parseVal_ser v _ f (by have := serObjTail_len_pos t; omega)
        (noDigitHead_serObjTail t rest)
    rw [hv]
    have hr : parseObjRest f (serObjTail t ++ rest) = some (t, rest) :=
      parseObjRest_ser t rest f (by have := serJson_len_pos v; omega)
    simp only [hr]
end

/-- JSON.parse inverts JSON.stringify on the model. -/
theorem jsonParse_serJson (v : Json) : jsonParse (serJson v) = some v := by
  rw [jsonParse]
  have h : parseVal ((serJson v).length + 1) (serJson v ++ []) = some (v, []) :=
    parseVal_ser v [] ((serJson v).length + 1) (by omega) rfl
  rw [List.append_nil] at h
  rw [h]
  rfl

/-- A string starting with a backtick is not parseable JSON. -/
theorem jsonParse_backtick (t : JStr) : jsonParse (backtick :: t) = none := by
  rw [jsonParse]
  have hlen : (backtick :: t).length + 1 = (t.length + 1) + 1 := by simp
  rw [hlen]
  have hskip : skipWs (backtick :: t) = backtick :: t := skipWs_cons_of_not (by decide) _
  rw [parseVal_cons (t.length + 1) hskip, if_neg (by decide), if_neg (by decide),
    if_neg (by decide), if_neg (by decide), if_neg (by decide), if_neg (by decide)]
  have hnum : parseNum (backtick :: t) = none := by
    rw [parseNum, if_neg (by decide), takeDigits_nonDigit (by rfl)]
  rw [hnum]
  rfl

theorem digitsMap_ends {ds : List Nat} (hne : ds ≠ []) (h : ∀ d ∈ ds, d < 10) :
    ∃ j c, ds.map digitChar = j ++ [c] ∧ jsWs c = false := by
  rcases ds.eq_nil_or_concat' with rfl | ⟨init, lastd, rfl⟩
  · exact absurd rfl hne
  · refine ⟨init.map digitChar, digitChar lastd, by simp, ?_⟩
    have : lastd < 10 := h lastd (by simp)
    exact (digitChar_facts this).2.2.2.2.2.2.2.2.2.2

mutual
theorem serJson_ends : ∀ (v : Json), ∃ j c, serJson v = j ++ [c] ∧ jsWs c = false
  | .null => ⟨['n', 'u', 'l'], 'l', rfl, by decide⟩
  | .bool true => ⟨['t', 'r', 'u'], 'e', rfl, by decide⟩
  | .bool false => ⟨['f', 'a', 'l', 's'], 'e', rfl, by decide⟩
  | .num n => by
    by_cases hn : n < 0
    · obtain ⟨j, c, hj, hc⟩ := digitsMap_ends (natDigitVals_ne_nil n.natAbs) (natDigitVals_lt _)
      refine ⟨'-' :: j, c, ?_, hc⟩
      rw [show serJson (.num n) = intChars n from rfl, intChars, if_pos hn, natDigits, hj]
      rfl
    · obtain ⟨j, c, hj, hc⟩ := digitsMap_ends (natDigitVals_ne_nil n.toNat) (natDigitVals_lt _)
      refine ⟨j, c, ?_, hc⟩
      rw [show serJson (.num n) = intChars n from rfl, intChars, if_neg hn, natDigits, hj]
  | .str s => ⟨'"' :: escape s, '"', by
      rw [show serJson (.str s) = '"' :: (escape s ++ ['"']) from rfl]
      rfl, by decide⟩
  | .arr xs => by
    obtain ⟨j, hj⟩ := serArrBody_ends xs
    exact ⟨'[' :: j, ']', by
      rw [show serJson (.arr xs) = '[' :: serArrBody xs from rfl, hj]
      rfl, by decide⟩
  | .obj xs => by
    obtain ⟨j, hj, -⟩ := serObjBody_ends xs
    exact ⟨lbrace :: j, rbrace, by
      rw [show serJson (.obj xs) = lbrace :: serObjBody xs from rfl, hj]
      rfl, by decide⟩

theorem serArrBody_ends : ∀ (xs : JsonArr), ∃ j, serArrBody xs = j ++ [']']
  | .nil => ⟨[], rfl⟩
  | .cons h t => by
    obtain ⟨j, hj⟩ := serArrTail_ends t
    exact ⟨serJson h ++ j, by
      rw [show serArrBody (.cons h t) = serJson h ++ serArrTail t from rfl, hj]
      simp⟩

theorem serArrTail_ends : ∀ (xs : JsonArr), ∃ j, serArrTail xs = j ++ [']']
  | .nil => ⟨[], rfl⟩
  | .cons h t => by
    obtain ⟨j, hj⟩ := serArrTail_ends t
    exact ⟨',' :: (serJson h ++ j), by
      rw [show serArrTail (.cons h t) = ',' :: (serJson h ++ serArrTail t) from rfl, hj]
      simp⟩

theorem serObjBody_ends : ∀ (xs : JsonObj),
    ∃ j, serObjBody xs = j ++ [rbrace] ∧ (j = [] ∨ ∃ j2 c2, j = j2 ++ [c2] ∧ jsWs c2 = false)
  | .nil => ⟨[], rfl, Or.inl rfl⟩
  | .cons k v t => by
    obtain ⟨j, hj, hgood⟩ := serObjTail_ends t
    refine ⟨'"' :: (escape k ++ '"' :: ':' :: (serJson v ++ j)), ?_, Or.inr ?_⟩
    · rw [show serObjBody (.cons k v t)
          = '"' :: (escape k ++ '"' :: ':' :: (serJson v ++ serObjTail t)) from rfl, hj]
      simp
    · rcases hgood with rfl | ⟨j2, c2, rfl, hc2⟩
      · obtain ⟨j3, c3, hj3, hc3⟩ := serJson_ends v
        refine ⟨'"' :: (escape k ++ '"' :: ':' :: j3), c3, ?_, hc3⟩
        rw [hj3]
        simp
      · refine ⟨'"' :: (escape k ++ '"' :: ':' :: (serJson v ++ j2)), c2, ?_, hc2⟩
        simp

theorem serObjTail_ends : ∀ (xs : JsonObj),
    ∃ j, serObjTail xs = j ++ [rbrace] ∧ (j = [] ∨ ∃ j2 c2, j = j2 ++ [c2] ∧ jsWs c2 = false)
  | .nil => ⟨[], rfl, Or.inl rfl⟩
  | .cons k v t => by
    obtain ⟨j, hj, hgood⟩ := serObjTail_ends t
    refine ⟨',' :: '"' :: (escape k ++ '"' :: ':' :: (serJson v ++ j)), ?_, Or.inr ?_⟩
    · rw [show serObjTail (.cons k v t)
          = ',' :: '"' :: (escape k ++ '"' :: ':' :: (serJson v ++ serObjTail t)) from rfl, hj]
      simp
    · rcases hgood with rfl | ⟨j2, c2, rfl, hc2⟩
      · obtain ⟨j3, c3, hj3, hc3⟩ := serJson_ends v
        refine ⟨',' :: '"' :: (escape k ++ '"' :: ':' :: j3), c3, ?_, hc3⟩
        rw [hj3]
        simp
      · refine ⟨',' :: '"' :: (escape k ++ '"' :: ':' :: (serJson v ++ j2)), c2, ?_, hc2⟩
        simp
end

theorem skipWs_serObjBody (xs : JsonObj) : skipWs (serObjBody xs) = serObjBody xs := by
  cases xs with
  | nil => exact skipWs_cons_of_not (by decide) _
  | cons k v t => exact skipWs_cons_of_not (by decide) _

theorem skipWs_serObj (xs : JsonObj) : skipWs (serJson (.obj xs)) = serJson (.obj xs) := by
  rw [show serJson (.obj xs) = lbrace :: serObjBody xs from rfl]
  exact skipWs_cons_of_not (by decide) _

theorem serObj_concat (xs : JsonObj) :
    ∃ j0 c0, serJson (.obj xs) = j0 ++ [c0] ∧ jsWs c0 = false ∧ c0 = rbrace ∧
      (∃ j1 c1, j0 = j1 ++ [c1] ∧ jsWs c1 = false) := by
  obtain ⟨j, hj, hgood⟩ := serObjBody_ends xs
  refine ⟨lbrace :: j, rbrace, ?_, by decide, rfl, ?_⟩
  · rw [show serJson (.obj xs) = lbrace :: serObjBody xs from rfl, hj]
    rfl
  · rcases hgood with rfl | ⟨j2, c2, rfl, hc2⟩
    · exact ⟨[], lbrace, rfl, by decide⟩
    · exact ⟨lbrace :: j2, c2, rfl, hc2⟩

theorem dropTrailingWs_serObj (xs : JsonObj) :
    dropTrailingWs (serJson (.obj xs)) = serJson (.obj xs) := by
  obtain ⟨j0, c0, hS, hc0, -, -⟩ := serObj_concat xs
  exact dropTrailingWs_of_last hS hc0

theorem normStart_serObj (xs : JsonObj) :
    normStart (serJson (.obj xs)) = serJson (.obj xs) := by
  simp only [normStart, skipWs_serObj]
  rw [show serJson (.obj xs) = lbrace :: serObjBody xs from rfl]
  simp only [if_pos, skipWs_serObjBody]

theorem normEnd_serObj (xs : JsonObj) :
    normEnd (serJson (.obj xs)) = serJson (.obj xs) := by
  obtain ⟨j0, c0, hS, hc0, hbrace, j1, c1, hj0, hc1⟩ := serObj_concat xs
  subst hbrace
  simp only [normEnd, dropTrailingWs_serObj]
  conv_lhs => rw [hS, List.reverse_append, List.reverse_singleton, List.singleton_append]
  simp only [if_pos]
  rw [hj0, List.reverse_append, List.reverse_singleton, List.singleton_append,
    List.dropWhile_cons, if_neg (by simp [hc1])]
  rw [show (c1 :: j1.reverse) = (j1 ++ [c1]).reverse by
    rw [List.reverse_append]
    rfl, List.reverse_reverse, ← hj0, ← hS]

theorem jsTrim_serObj (xs : JsonObj) : jsTrim (serJson (.obj xs)) = serJson (.obj xs) := by
  rw [jsTrim, skipWs_serObj, dropTrailingWs_serObj]

/-- The cleaning pipeline recovers the serialized object from a fenced wrap
whose whitespace sits inside the fence markers. -/
theorem cleanSteps_fence (xs : JsonObj) (ws1 ws2 : JStr) (h1 : ∀ c ∈ ws1, jsWs c = true)
    (h2 : ∀ c ∈ ws2, jsWs c = true) :
    cleanSteps ([backtick, backtick, backtick, 'j', 's', 'o', 'n'] ++
        (ws1 ++ (serJson (.obj xs) ++ (ws2 ++ [backtick, backtick, backtick]))))
      = serJson (.obj xs) := by
  have hstep1 : stripFenceJson ([backtick, backtick, backtick, 'j', 's', 'o', 'n'] ++
      (ws1 ++ (serJson (.obj xs) ++ (ws2 ++ [backtick, backtick, backtick]))))
      = serJson (.obj xs) ++ (ws2 ++ [backtick, backtick, backtick]) := by
    have h7 : ([backtick, backtick, backtick, 'j', 's', 'o', 'n'] : JStr).length = 7 := rfl
    rw [stripFenceJson]
    rw [if_pos (by
      have htake : (([backtick, backtick, backtick, 'j', 's', 'o', 'n'] ++
          (ws1 ++ (serJson (.obj xs) ++ (ws2 ++ [backtick, backtick, backtick]))))).take 7
          = [backtick, backtick, backtick, 'j', 's', 'o', 'n'] := by
        rw [← h7]
        exact List.take_left _ _
      rw [htake]
      decide)]
    have hdrop : (([backtick, backtick, backtick, 'j', 's', 'o', 'n'] ++
        (ws1 ++ (serJson (.obj xs) ++ (ws2 ++ [backtick, backtick, backtick]))))).drop 7
        = ws1 ++ (serJson (.obj xs) ++ (ws2 ++ [backtick, backtick, backtick])) := by
      rw [← h7]
      exact List.drop_left _ _
    rw [hdrop, skipWs_append_ws h1]
    rw [show serJson (.obj xs) ++ (ws2 ++ [backtick, backtick, backtick])
        = lbrace :: (serObjBody xs ++ (ws2 ++ [backtick, backtick, backtick])) by
      rw [show serJson (.obj xs) = lbrace :: serObjBody xs from rfl]
      rfl]
    exact skipWs_cons_of_not (by decide) _
  have hstep2 : stripFencePlain (serJson (.obj xs) ++ (ws2 ++ [backtick, backtick, backtick]))
      = serJson (.obj xs) ++ (ws2 ++ [backtick, backtick, backtick]) := by
    rw [stripFencePlain, if_neg]
    intro h
    rw [show serJson (.obj xs) ++ (ws2 ++ [backtick, backtick, backtick])
        = lbrace :: (serObjBody xs ++ (ws2 ++ [backtick, backtick, backtick])) by
      rw [show serJson (.obj xs) = lbrace :: serObjBody xs from rfl]
      rfl] at h
    rw [show (3 : Nat) = 2 + 1 from rfl, List.take_succ_cons] at h
    have := List.head_eq_of_cons_eq h
    exact absurd this (by decide)
  have hstep3 : stripTrailFence (serJson (.obj xs) ++ (ws2 ++ [backtick, backtick, backtick]))
      = serJson (.obj xs) := by
    rw [stripTrailFence, if_pos (by
      rw [List.isSuffixOf_iff_suffix, show serJson (.obj xs) ++
          (ws2 ++ [backtick, backtick, backtick])
          = (serJson (.obj xs) ++ ws2) ++ [backtick, backtick, backtick] by simp]
      exact List.suffix_append _ _)]
    have hre : serJson (.obj xs) ++ (ws2 ++ [backtick, backtick, backtick])
        = (serJson (.obj xs) ++ ws2) ++ [backtick, backtick, backtick] := by simp
    rw [hre]
    have hlen : ((serJson (.obj xs) ++ ws2) ++ [backtick, backtick, backtick]).length - 3
        = (serJson (.obj xs) ++ ws2).length := by
      simp only [List.length_append, List.length_cons, List.length_nil]
      omega
    rw [hlen, List.take_left, dropTrailingWs_append_ws h2, dropTrailingWs_serObj]
  rw [cleanSteps, hstep1, hstep2, hstep3, normStart_serObj, normEnd_serObj, jsTrim_serObj]

/-! The claim theorems. -/

/-- C1: the claim that exactly one HTTP response is ever written per request
fails on the code: in the race where the upstream fetch never resolves, the
server-level response timeout writes its 504 and the route handler's
AbortError branch then performs a second 504 write — neither path guards on a
response having already been written. -/
theorem c1_timeout_race_double_write :
    writes sampleRequestId hangingSchedule =
      [⟨504, .failure (serverTimeoutBody sampleRequestId)⟩,
        ⟨504, .failure (abortTimeoutBody sampleRequestId)⟩] ∧
      (writes sampleRequestId hangingSchedule).length = 2 :=
  ⟨rfl, rfl⟩

/-- C2 counterexample: the 504 timeout body's details string does not carry
the elapsed duration (it is constant in the duration, which only reaches the
TIMEOUT log entry). -/
theorem c2_timeout_details_no_duration :
    handlerWrite sampleRequestId (fetchSettle hangingSchedule).2
      = ⟨504, .failure (abortTimeoutBody sampleRequestId)⟩ ∧
    includesSub (natDigits (abortDurationMs hangingSchedule))
      (abortTimeoutBody sampleRequestId).details = false ∧
    (abortLogData (abortDurationMs hangingSchedule)).1 = "120001ms".toList :=
  ⟨rfl, rfl, rfl⟩

/-- C2 (amended): when the upstream fetch never resolves before the deadline,
the fetch settles exactly once, with an AbortError at the abort deadline; the
handler responds 504 with a timeout_error body whose code equals its type,
whose requestId is the request's id, and whose details carry the configured
120-second deadline; the elapsed duration is carried by the TIMEOUT log
entry, not the body. -/
theorem c2_timeout_response (s : Schedule) (rid : JStr) (hu : s.upstream = none) :
    fetchSettle s = (s.handlerArm + TIMEOUT_MS, .errAbort) ∧
    handlerWrite rid (fetchSettle s).2 = ⟨504, .failure (abortTimeoutBody rid)⟩ ∧
    (abortTimeoutBody rid).errType = "timeout_error".toList ∧
    (abortTimeoutBody rid).code = "timeout_error".toList ∧
    (abortTimeoutBody rid).requestId = rid ∧
    includesSub ("120 seconds".toList) (abortTimeoutBody rid).details = true ∧
    (abortLogData (abortDurationMs s)).1 = natDigits (abortDurationMs s) ++ "ms".toList ∧
    (abortLogData (abortDurationMs s)).2 = "120s".toList := by
  have hset : fetchSettle s = (s.handlerArm + TIMEOUT_MS, .errAbort) := by
    simp only [fetchSettle, hu]
  refine ⟨hset, ?_, rfl, rfl, rfl, rfl, rfl, rfl⟩
  rw [hset]
  rfl

theorem c2_timeout_response_witness :
    fetchSettle hangingSchedule = (hangingSchedule.handlerArm + TIMEOUT_MS, .errAbort) ∧
    handlerWrite sampleRequestId (fetchSettle hangingSchedule).2
      = ⟨504, .failure (abortTimeoutBody sampleRequestId)⟩ ∧
    (abortTimeoutBody sampleRequestId).errType = "timeout_error".toList ∧
    (abortTimeoutBody sampleRequestId).code = "timeout_error".toList ∧
    (abortTimeoutBody sampleRequestId).requestId = sampleRequestId ∧
    includesSub ("120 seconds".toList) (abortTimeoutBody sampleRequestId).details = true ∧
    (abortLogData (abortDurationMs hangingSchedule)).1
      = natDigits (abortDurationMs hangingSchedule) ++ "ms".toList ∧
    (abortLogData (abortDurationMs hangingSchedule)).2 = "120s".toList :=
  c2_timeout_response hangingSchedule sampleRequestId rfl

/-- C3: the catch-all route of the combined variant forwards the parsed
request body verbatim (the upstream receives exactly its serialization) and
returns the upstream's JSON reply unchanged with status 200, for every path
of data — in particular no translation, sanitization or validation is ever
applied to it. -/
theorem c3_catch_all_verbatim (raw : JStr) (body : Json) (hparse : jsonParse raw = some body)
    (upstream : JStr → Except JStr (Nat × Json)) (st : Nat) (data : Json)
    (hup : upstream (serJson body) = .ok (st, data)) :
    handlePart3 raw upstream = ⟨some (serJson body), ⟨200, data⟩⟩ := by
  have hraw : ¬ raw = [] := by
    intro h
    subst h
    exact absurd hparse (by rw [show jsonParse [] = none from rfl]; simp)
  simp only [handlePart3, jsonParserMiddleware, if_neg hraw, hparse, catchAllRoute, hup]

theorem c3_catch_all_verbatim_witness :
    handlePart3 (serJson minimalChatBody) (fun _ => .ok (201, minimalChatBody))
      = ⟨some (serJson minimalChatBody), ⟨200, minimalChatBody⟩⟩ :=
  c3_catch_all_verbatim (serJson minimalChatBody) minimalChatBody
    (jsonParse_serJson minimalChatBody) (fun _ => .ok (201, minimalChatBody)) 201
    minimalChatBody rfl

/-- C4 counterexample: with a present-but-empty prompt field the code
substitutes the default text, so the user message is not the template applied
to the body's prompt field. -/
theorem c4_counterexample :
    convertToChatCompletion workoutPlanKey (.obj (.cons promptKey (.str []) .nil))
      = .chat chatCompletionsKey
        { model := "gpt-3.5-turbo".toList
          messages := [⟨"system".toList, workoutSystemPrompt⟩,
            ⟨"user".toList, workoutUserPrompt defaultPlanPrompt⟩]
          temperature := 7 / 10
          maxTokens := .num 2000
          responseFormatType := "json_object".toList } ∧
    ¬ workoutUserPrompt defaultPlanPrompt = workoutUserPrompt [] :=
  ⟨rfl, by decide⟩

/-- C4 (amended): forward translation is the identity on paths whose last
segment has no translation rule; on specialized paths it produces the
canonical chat body with the rule's fixed system message, the user message
from the rule's template applied to the prompt when present and truthy
(default text when absent or falsy), temperature exactly 0.7, max_tokens from
the caller when truthy (2000 when absent or falsy), and the JSON
response-format hint. -/
theorem c4_forward (path : JStr) (body : Json) :
    (specialPrompt (lastSegment path) = none →
      convertToChatCompletion path body = .passthrough path body) ∧
    (∀ sp, specialPrompt (lastSegment path) = some sp →
      convertToChatCompletion path body = .chat chatCompletionsKey
        { model := "gpt-3.5-turbo".toList
          messages := [⟨"system".toList, sp.system⟩,
            ⟨"user".toList, sp.user (match getField body promptKey with
              | some v => if truthy v then jsToString v else defaultPlanPrompt
              | none => defaultPlanPrompt)⟩]
          temperature := 7 / 10
          maxTokens := (match getField body maxTokensKey with
            | some v => if truthy v then v else .num 2000
            | none => .num 2000)
          responseFormatType := "json_object".toList }) := by
  constructor
  · intro h
    simp [convertToChatCompletion, h]
  · intro sp h
    simp [convertToChatCompletion, h, promptOf, maxTokensOf]

theorem c4_forward_witness :
    convertToChatCompletion chatCompletionsKey (.obj .nil)
      = .passthrough chatCompletionsKey (.obj .nil) ∧
    convertToChatCompletion workoutPlanKey (.obj .nil) = .chat chatCompletionsKey
      { model := "gpt-3.5-turbo".toList
        messages := [⟨"system".toList, workoutSystemPrompt⟩,
          ⟨"user".toList, workoutUserPrompt defaultPlanPrompt⟩]
        temperature := 7 / 10
        maxTokens := .num 2000
        responseFormatType := "json_object".toList } :=
  ⟨(c4_forward chatCompletionsKey (.obj .nil)).1 rfl,
    (c4_forward workoutPlanKey (.obj .nil)).2 ⟨workoutSystemPrompt, workoutUserPrompt⟩ rfl⟩

/-- C5 counterexample: a specialized-endpoint response with an empty choices
array is returned unchanged (no translation error is raised). -/
theorem c5_counterexample :
    transformResponse workoutPlanKey emptyChoicesJson = .ok emptyChoicesJson :=
  rfl

/-- C5 (amended): for specialized endpoints, backward translation returns the
response unchanged when choices are absent, falsy, or lack a truthy first
element; raises the translation error exactly when the truthy first choice
has no message field, the message has no content field, or the non-object
content fails to JSON-parse; and otherwise returns the first choice's message
content — as-is when object-typed, else its JSON.parse — discarding the
envelope. -/
theorem c5_transform (path : JStr) (response : Json) (sp : SpecialPrompt)
    (hsp : specialPrompt (lastSegment path) = some sp) :
    (getField response choicesKey = none → transformResponse path response = .ok response) ∧
    (∀ chs, getField response choicesKey = some chs → truthy chs = false →
      transformResponse path response = .ok response) ∧
    (∀ chs, getField response choicesKey = some chs → truthy chs = true →
      jsIndex0 chs = none → transformResponse path response = .ok response) ∧
    (∀ chs c0, getField response choicesKey = some chs → truthy chs = true →
      jsIndex0 chs = some c0 → truthy c0 = false →
      transformResponse path response = .ok response) ∧
    (∀ chs c0, getField response choicesKey = some chs → truthy chs = true →
      jsIndex0 chs = some c0 → truthy c0 = true → getField c0 messageKey = none →
      transformResponse path response = .error transErrMsg) ∧
    (∀ chs c0 m, getField response choicesKey = some chs → truthy chs = true →
      jsIndex0 chs = some c0 → truthy c0 = true → getField c0 messageKey = some m →
      getField m contentKey = none →
      transformResponse path response = .error transErrMsg) ∧
    (∀ chs c0 m content, getField response choicesKey = some chs → truthy chs = true →
      jsIndex0 chs = some c0 → truthy c0 = true → getField c0 messageKey = some m →
      getField m contentKey = some content → isObjectType content = true →
      transformResponse path response = .ok content) ∧
    (∀ chs c0 m content v, getField response choicesKey = some chs → truthy chs = true →
      jsIndex0 chs = some c0 → truthy c0 = true → getField c0 messageKey = some m →
      getField m contentKey = some content → isObjectType content = false →
      jsonParse (jsToString content) = some v →
      transformResponse path response = .ok v) ∧
    (∀ chs c0 m content, getField response choicesKey = some chs → truthy chs = true →
      jsIndex0 chs = some c0 → truthy c0 = true → getField c0 messageKey = some m →
      getField m contentKey = some content → isObjectType content = false →
      jsonParse (jsToString content) = none →
      transformResponse path response = .error transErrMsg) := by
  refine ⟨?_, ?_, ?_, ?_, ?_, ?_, ?_, ?_, ?_⟩
  · intro h
    simp [transformResponse, hsp, h]
  · intro chs h1 h2
    simp [transformResponse, hsp, h1, h2]
  · intro chs h1 h2 h3
    simp [transformResponse, hsp, h1, h2, h3]
  · intro chs c0 h1 h2 h3 h4
    simp [transformResponse, hsp, h1, h2, h3, h4]
  · intro chs c0 h1 h2 h3 h4 h5
    simp [transformResponse, hsp, h1, h2, h3, h4, h5]
  · intro chs c0 m h1 h2 h3 h4 h5 h6
    simp [transformResponse, hsp, h1, h2, h3, h4, h5, h6]
  · intro chs c0 m content h1 h2 h3 h4 h5 h6 h7
    simp [transformResponse, hsp, h1, h2, h3, h4, h5, h6, h7]
  · intro chs c0 m content v h1 h2 h3 h4 h5 h6 h7 h8
    simp [transformResponse, hsp, h1, h2, h3, h4, h5, h6, h7, h8]
  · intro chs c0 m content h1 h2 h3 h4 h5 h6 h7 h8
    simp [transformResponse, hsp, h1, h2, h3, h4, h5, h6, h7, h8]

theorem c5_transform_witness :
    transformResponse workoutPlanKey (chatBodyWith planContentWithDays)
      = .ok planContentWithDays :=
  ((c5_transform workoutPlanKey (chatBodyWith planContentWithDays)
      ⟨workoutSystemPrompt, workoutUserPrompt⟩ rfl).2.2.2.2.2.2.1)
    (.arr (.cons (.obj (.cons messageKey
      (.obj (.cons roleKey (.str ['a']) (.cons contentKey planContentWithDays .nil))) .nil))
      .nil))
    (.obj (.cons messageKey
      (.obj (.cons roleKey (.str ['a']) (.cons contentKey planContentWithDays .nil))) .nil))
    (.obj (.cons roleKey (.str ['a']) (.cons contentKey planContentWithDays .nil)))
    planContentWithDays rfl rfl rfl rfl rfl rfl rfl

/-- C6 counterexample: with surrounding whitespace outside the fence markers
(here, a trailing newline after the closing fence), the sanitizer's anchored
replaces do not strip the fence and the round trip fails with the cleaning
error instead of recovering the object. -/
theorem c6_counterexample :
    cleanOpenAIResponse (fencedNl (serJson (.obj .nil))) workoutPlanKey
      = .error .cleanFail :=
  rfl

/-- C6 (amended): the sanitizer round-trips every serialized JSON object
wrapped in a code fence whose whitespace lies inside the fence markers
(after the opening marker's language tag and before the closing marker, with
nothing outside), on every non-chat-completion path. -/
theorem c6_round_trip (xs : JsonObj) (ws1 ws2 : JStr) (path : JStr)
    (h1 : ∀ c ∈ ws1, jsWs c = true) (h2 : ∀ c ∈ ws2, jsWs c = true)
    (hpath : includesSub chatCompletionsKey path = false) :
    cleanOpenAIResponse
      ([backtick, backtick, backtick, 'j', 's', 'o', 'n'] ++
        (ws1 ++ (serJson (.obj xs) ++ (ws2 ++ [backtick, backtick, backtick])))) path
      = .ok (.obj xs) := by
  have hrawparse : jsonParse
      ([backtick, backtick, backtick, 'j', 's', 'o', 'n'] ++
        (ws1 ++ (serJson (.obj xs) ++ (ws2 ++ [backtick, backtick, backtick])))) = none := by
    rw [show ([backtick, backtick, backtick, 'j', 's', 'o', 'n'] ++
        (ws1 ++ (serJson (.obj xs) ++ (ws2 ++ [backtick, backtick, backtick]))))
        = backtick :: ([backtick, backtick, 'j', 's', 'o', 'n'] ++
          (ws1 ++ (serJson (.obj xs) ++ (ws2 ++ [backtick, backtick, backtick])))) from rfl]
    exact jsonParse_backtick _
  simp only [cleanOpenAIResponse, hpath, Bool.false_eq_true, if_false, hrawparse,
    cleanSteps_fence xs ws1 ws2 h1 h2, jsonParse_serJson]

theorem c6_round_trip_witness :
    cleanOpenAIResponse
      ([backtick, backtick, backtick, 'j', 's', 'o', 'n'] ++
        ([Char.ofNat 10] ++ (serJson (.obj (.cons nameKey (.str ['p']) .nil)) ++
          ([Char.ofNat 10] ++ [backtick, backtick, backtick])))) workoutPlanKey
      = .ok (.obj (.cons nameKey (.str ['p']) .nil)) :=
  c6_round_trip (.cons nameKey (.str ['p']) .nil) [Char.ofNat 10] [Char.ofNat 10]
    workoutPlanKey (by decide) (by decide) rfl

/-- C7: on unparseable upstream text the catch block of safeJsonParse
re-invokes the cleaner while building its diagnostics payload, which throws
again, so no log entry (and hence no bounded excerpt) is ever emitted and the
cleaning error escapes instead of the intended parse_error; on a
validation failure the payload calls .substring on a non-string parsed value
and crashes the same way. -/
theorem c7_diagnostics_crash :
    safeJsonParse unparseableText workoutPlanKey = ([], .error (.cleanErr .cleanFail)) ∧
    safeJsonParse (serJson (.obj .nil)) chatCompletionsKey
      = ([], .error .substringTypeError) :=
  ⟨rfl, rfl⟩

/-- C8: the validator accepts a chat-completion body whose choices array is
empty (the per-choice loop never runs), although the repository's own test
validator rejects exactly that input; bodies without an id are rejected, a
minimal well-formed body is accepted, and a choice whose message lacks
content is rejected. -/
theorem c8_validator_empty_choices :
    validateResponseStructure emptyIdChoicesBody chatCompletionsKey = .ok true ∧
    testValidateChoices emptyIdChoicesBody = .error ("Choices array cannot be empty".toList) ∧
    validateResponseStructure noIdBody chatCompletionsKey = .error msgInvalidChat ∧
    validateResponseStructure minimalChatBody chatCompletionsKey = .ok true ∧
    validateResponseStructure noContentBody chatCompletionsKey = .error msgInvalidMessage :=
  ⟨rfl, rfl, rfl, rfl, rfl⟩

/-- C9: the plan-content check requires a days field even on a meal-plan
path: a meal-plan response carrying meals (as the code's own
EXPECTED_STRUCTURES table requires) is rejected, while one carrying days is
accepted. -/
theorem c9_meal_plan_days :
    validateResponseStructure (chatBodyWith planContentWithMeals) mealChatPath
      = .error (msgInvalidPlanFormat msgInvalidPlanStructure) ∧
    validateResponseStructure (chatBodyWith planContentWithDays) mealChatPath = .ok true ∧
    EXPECTED_STRUCTURES mealPlanKey
      = some ⟨[nameKey, descriptionKey, mealsKey],
          ["calories".toList, "duration".toList, "dietaryRestrictions".toList]⟩ :=
  ⟨rfl, rfl, rfl⟩

/-- C10 counterexample: the 400 parse_error body written by the combined
variant's JSON parser middleware carries neither a requestId nor a code
field. -/
theorem c10_counterexample :
    errorField (parseErrorBody msgSyntaxError) ("requestId".toList) = none ∧
    errorField (parseErrorBody msgSyntaxError) ("code".toList) = none ∧
    errorField (parseErrorBody msgSyntaxError) ("type".toList)
      = some (.str ("parse_error".toList)) :=
  ⟨rfl, rfl, rfl⟩

/-- C10 (amended): the abort-variant's handler and timeout bodies carry all
five fields with code equal to type and the request's id; but the combined
variant's parse_error body has only type, message and details (no code, no
requestId), and its internal_error bodies only type and message. -/
theorem c10_error_bodies (rid errMsg : JStr) :
    (serverTimeoutBody rid).requestId = rid ∧
    (serverTimeoutBody rid).errType = "timeout_error".toList ∧
    (serverTimeoutBody rid).code = (serverTimeoutBody rid).errType ∧
    (abortTimeoutBody rid).requestId = rid ∧
    (abortTimeoutBody rid).code = (abortTimeoutBody rid).errType ∧
    (proxyErrorBody rid errMsg).requestId = rid ∧
    (proxyErrorBody rid errMsg).errType = "proxy_error".toList ∧
    (proxyErrorBody rid errMsg).code = (proxyErrorBody rid errMsg).errType ∧
    (proxyErrorBody rid errMsg).details = errMsg ∧
    errorField (parseErrorBody errMsg) ("type".toList) = some (.str ("parse_error".toList)) ∧
    errorField (parseErrorBody errMsg) ("requestId".toList) = none ∧
    errorField (parseErrorBody errMsg) ("code".toList) = none ∧
    errorField (internalErrorBody errMsg) ("type".toList)
      = some (.str ("internal_error".toList)) ∧
    errorField (internalErrorBody errMsg) ("requestId".toList) = none ∧
    errorField (internalErrorBody errMsg) ("details".toList) = none :=
  ⟨rfl, rfl, rfl, rfl, rfl, rfl, rfl, rfl, rfl, rfl, rfl, rfl, rfl, rfl, rfl⟩

end Proxy
